import Mathlib

/-!
Verification development for `sparql/v0.5/rdflib_tabular_dump.py`, the
tabular-dump generator for DATS-encoded GTEx/TOPMed metadata.

The script walks an RDF triple graph (an rdflib `Graph`, i.e. a finite set
of subject/predicate/object triples) and prints a tab-separated table.
We embed it shallowly:

* a graph is a `List Triple` of string nodes; since an rdflib graph is a
  set of triples, the pipeline first deduplicates its input list, so that
  every concrete set of triples has a canonical enumeration;
* rdflib terms (URIRefs, BNodes, Literals) are modelled by their string
  form: every place the script applies `str(...)` to a term is the
  identity here, and `str(None)` is the literal string `"None"`;
* Python dicts are association lists with insert-or-update semantics
  (update in place keeps the key's position, a fresh key goes to the end),
  matching the insertion-order iteration of Python 3.7+ dicts;
* `list.sort(key=...)` / `sorted(...)` are a stable insertion sort by the
  same key; Python's sort is stable, so the result coincides;
* `sys.exit(1)` after `logging.fatal(...)`, uncaught `KeyError` and
  uncaught `TypeError` all abort the process with a non-zero status; they
  are the constructors of `Err`.  The run result is the list of lines
  printed before the abort (if any) paired with the optional abort.

The vocabulary constants (`ru.*`) live in the external `rdflib_util`
module (outside the core source); they are opaque distinct labels here.
-/

deriving instance DecidableEq for Except

namespace TabularDump

/-! ### Nodes, triples and pattern queries -/

abbrev Node := String

structure Triple where
  s : Node
  p : Node
  o : Node
deriving DecidableEq, Repr

abbrev Graph := List Triple

/-- `g.triples((s?, p?, o?))`: all triples matching the pattern, where an
unbound (`none`) position is a wildcard.  rdflib returns each stored
triple at most once; on a deduplicated list so do we. -/
def tmatch (g : Graph) (sq pq oq : Option Node) : List Triple :=
  g.filter fun t =>
    (match sq with | none => true | some s => t.s = s) &&
    (match pq with | none => true | some p => t.p = p) &&
    (match oq with | none => true | some o => t.o = o)

/-! ### Vocabulary (external `rdflib_util` constants, opaque labels) -/

def RDF_TYPE_TERM : Node := "rdf:type"
def DATS_DATASET_TERM : Node := "dats:Dataset"
def CENTRAL_ID_TERM : Node := "obo:IAO_0000577"
def SDO_IDENT_TERM : Node := "sdo:identifier"
def TITLE_TERM : Node := "dats:title"
def DESCR_TERM : Node := "sdo:Text"
def PRODUCED_BY_TERM : Node := "dats:producedBy"
def DATS_STUDY_TERM : Node := "dats:Study"
def HAS_PART_TERM : Node := "obo:BFO_0000051"
def DATS_STUDY_GROUP_TERM : Node := "dats:StudyGroup"
def NAME_TERM : Node := "sdo:name"
def HAS_MEMBER_TERM : Node := "obo:RO_0002351"
def DATS_MATERIAL_TERM : Node := "dats:Material"
def HAS_QUALITY_TERM : Node := "obo:RO_0000086"
def DATA_ITEM_TERM : Node := "obo:IAO_0000027"
def SDO_VALUE_TERM : Node := "sdo:value"
def DATS_DIMENSION_TERM : Node := "dats:Dimension"
def SDO_DISTRIBUTIONS_TERM : Node := "sdo:distribution"
def SDO_SIZE_TERM : Node := "sdo:contentSize"
def SDO_DATA_DOWNLOAD_TERM : Node := "sdo:DataDownload"
def DATS_DATA_ACQUISITION_TERM : Node := "sdo:Action"
def HAS_INPUT_TERM : Node := "obo:RO_0002233"
def DERIVES_FROM_TERM : Node := "obo:RO_0001000"
def SDO_ANATOMICAL_STRUCTURE_TERM : Node := "sdo:AnatomicalStructure"

/-- The two known project title literals (line 42 of the script). -/
def gtexTitle : String := "Genotype-Tissue Expression Project (GTEx)"

def topmedTitle : String := "Trans-Omics for Precision Medicine (TOPMed)"

def titles : List String := [gtexTitle, topmedTitle]

/-! ### Abort conditions -/

/-- Every way the process terminates with a non-zero exit status:
`sys.exit(1)` calls as well as uncaught `KeyError` / `TypeError`. -/
inductive Err where
  /-- `"found N top-level DATS Datasets"` (line 54). -/
  | topLevelCount (n : Nat)
  /-- `"file size mismatch"` (line 178). -/
  | sizeMismatch
  /-- `"found N term ids for AnatomicalPart <name>"` (line 228). -/
  | termIdCount (n : Nat)
  /-- `"found N AnatomicalParts for subject <s>"` (line 242). -/
  | anatPartCount (n : Nat)
  /-- `"couldn't parse seq type from URI <uri>"` (line 253). -/
  | unparsedSeqType (uri : String)
  /-- `"couldn't determine seq datatype from URI <uri>"` (line 256). -/
  | unknownSeqType (uri : String)
  /-- Uncaught Python `TypeError` (e.g. `None` where a `str` is needed). -/
  | typeError
  /-- Uncaught Python `KeyError` (unguarded dict lookup). -/
  | keyError
deriving DecidableEq, Repr

/-! ### Python dict as insertion-ordered association list -/

/-- `m[k] = v`: update in place keeps the key's position, a fresh key is
appended. -/
def dinsert [DecidableEq α] : List (α × β) → α → β → List (α × β)
  | [], k, v => [(k, v)]
  | (k', v') :: rest, k, v =>
    if k' = k then (k, v) :: rest else (k', v') :: dinsert rest k v

def dlookup [DecidableEq α] : List (α × β) → α → Option β
  | [], _ => none
  | (k', v') :: rest, k => if k' = k then some v' else dlookup rest k

/-- `k in m`. -/
def dcontains [DecidableEq α] (m : List (α × β)) (k : α) : Bool :=
  (dlookup m k).isSome

/-- `m.keys()` in iteration order. -/
def dkeys (m : List (α × β)) : List α := m.map (·.1)

/-- `m.values()` in iteration order. -/
def dvalues (m : List (α × β)) : List β := m.map (·.2)

/-- `if k not in m: m[k] = []` followed by `m[k].append(v)`. -/
def dappend [DecidableEq α] : List (α × List β) → α → β → List (α × List β)
  | [], k, v => [(k, [v])]
  | (k', l) :: rest, k, v =>
    if k' = k then (k', l ++ [v]) :: rest else (k', l) :: dappend rest k v

/-! ### Python string comparison (by Unicode code points) -/

/-- Three-way comparison of char lists, as Python compares `str`. -/
def strCmp : List Char → List Char → Ordering
  | [], [] => .eq
  | [], _ :: _ => .lt
  | _ :: _, [] => .gt
  | a :: as_, b :: bs =>
    if a.toNat < b.toNat then .lt
    else if b.toNat < a.toNat then .gt
    else strCmp as_ bs

/-- `a <= b` on Python strings. -/
def strLeB (a b : String) : Bool :=
  match strCmp a.data b.data with
  | .gt => false
  | _ => true

/-- Auxiliary for `strContains`: does `n` occur as a contiguous run of
`hay`? -/
def substrAux (n : List Char) : List Char → Bool
  | [] => n.isEmpty
  | c :: rest => n.isPrefixOf (c :: rest) || substrAux n rest

/-- Python `needle in haystack` / `re.search` on a literal pattern:
substring containment. -/
def strContains (hay needle : String) : Bool :=
  substrAux needle.data hay.data

/-! ### Stable sort (Python's `list.sort` / `sorted`) -/

/-- Insert `a` before the first element it is `le`-below-or-equal;
stability: an element inserted later in the recursion came earlier in the
input and lands before equal elements. -/
def sinsert (le : α → α → Bool) (a : α) : List α → List α
  | [] => [a]
  | b :: l => if le a b then a :: b :: l else b :: sinsert le a l

/-- Stable insertion sort; agrees with Python's stable sort for any total
preorder `le`. -/
def ssort (le : α → α → Bool) : List α → List α
  | [] => []
  | a :: l => sinsert le a (ssort le l)

/-- `list.sort(key=lambda x: m[x])`: computes every key first (raising
`KeyError` when one is missing), then stably sorts.  Returns the elements
paired with their keys. -/
def sortByKeyM (key : α → Option K) (le : K → K → Bool) (l : List α) :
    Except Err (List (α × K)) :=
  match l.mapM (fun a => (key a).map (fun k => (a, k))) with
  | none => .error .keyError
  | some pairs => .ok (ssort (fun p q => le p.2 q.2) pairs)

/-! ### Generic traversal helpers -/

/-- Two-hop attribute lookup: all `o2` with `node --p1--> x --p2--> o2`,
in graph scan order. -/
def twoHopValues (g : Graph) (node : Node) (p1 p2 : Node) : List String :=
  (tmatch g (some node) (some p1) none).flatMap fun t1 =>
    (tmatch g (some t1.o) (some p2) none).map (·.o)

/-- Fold that propagates the first fatal abort. -/
def foldlE : List α → σ → (σ → α → Except Err σ) → Except Err σ
  | [], st, _ => .ok st
  | a :: l, st, f =>
    match f st a with
    | .error e => .error e
    | .ok st' => foldlE l st' f

/-- Python `dict` used as an ordered set: keep first occurrence. -/
def insertNew [DecidableEq α] (l : List α) (a : α) : List α :=
  if a ∈ l then l else l ++ [a]

def dedupKeepFirst [DecidableEq α] (l : List α) : List α :=
  l.foldl insertNew []

/-- `str(x)` for an optional value: `str(None) = "None"`. -/
def pyStr : Option String → String
  | none => "None"
  | some s => s

/-! ### Lines 30-38: all Datasets, their resolved identifiers -/

/-- Line 30: subjects of every `rdf:type dats:Dataset` assertion. -/
def allDatasets (g : Graph) : List Node :=
  (tmatch g none (some RDF_TYPE_TERM) (some DATS_DATASET_TERM)).map (·.s)

/-- Lines 33-36: `dataset_ids[d] = o2` for every two-hop identifier of
every Dataset (last assignment wins). -/
def buildDatasetIds (g : Graph) (ds : List Node) : List (Node × String) :=
  ds.foldl
    (fun m d =>
      (twoHopValues g d CENTRAL_ID_TERM SDO_IDENT_TERM).foldl
        (fun m v => dinsert m d v) m)
    []

/-- Lines 37-38: retain Datasets that acquired an identifier. -/
def datasetsWithId (g : Graph) : List Node :=
  (allDatasets g).filter fun d => dcontains (buildDatasetIds g (allDatasets g)) d

/-- The run's `dataset_ids` dict. -/
def datasetIdsOf (g : Graph) : List (Node × String) :=
  buildDatasetIds g (allDatasets g)

/-! ### Lines 44-51: top-level Dataset by project title -/

/-- Lines 47-51: every (dataset, matching title) pair, in scan order;
`tl_datasets` is the first components, `project_name` the last second
component. -/
def tlTitlePairs (g : Graph) (ds : List Node) : List (Node × String) :=
  ds.flatMap fun d =>
    titles.flatMap fun tt =>
      (tmatch g (some d) (some TITLE_TERM) (some tt)).map fun _ => (d, tt)

/-! ### Lines 58-65: Dataset to Study -/

/-- Lines 58-62: `ds_to_study[d] = o` for every `producedBy` target typed
`Study` (last wins). -/
def buildDsToStudy (g : Graph) (ds : List Node) : List (Node × Node) :=
  ds.foldl
    (fun m d =>
      (tmatch g (some d) (some PRODUCED_BY_TERM) none).foldl
        (fun m t =>
          (tmatch g (some t.o) (some RDF_TYPE_TERM) (some DATS_STUDY_TERM)).foldl
            (fun m _ => dinsert m d t.o) m)
        m)
    []

/-! ### Lines 68-81: Study to StudyGroups with names -/

/-- Lines 70-81: for each study (in `ds_to_study.values()` order) collect
its `hasPart` children typed `StudyGroup`; record every name in
`study_group_to_name` and keep the group only when it has exactly one
name.  Returns `(study_to_groups, study_group_to_name)`. -/
def buildGroups (g : Graph) (studies : List Node) :
    List (Node × List Node) × List (Node × String) :=
  studies.foldl
    (fun st stu =>
      let inner :=
        (tmatch g (some stu) (some HAS_PART_TERM) none).foldl
          (fun acc t =>
            (tmatch g (some t.o) (some RDF_TYPE_TERM) (some DATS_STUDY_GROUP_TERM)).foldl
              (fun acc _ =>
                let nameTriples := tmatch g (some t.o) (some NAME_TERM) none
                let names := nameTriples.foldl (fun m t3 => dinsert m t.o t3.o) acc.2
                let groups := if nameTriples.length = 1 then acc.1 ++ [t.o] else acc.1
                (groups, names))
              acc)
          (([] : List Node), st.2)
      (dinsert st.1 stu inner.1, inner.2))
    ([], [])

/-! ### Lines 84-93: StudyGroup members (Subjects) and their names -/

/-- Lines 88-92, one `hasMember` triple: per `Material` type assertion
of the member, record all its names (last wins) and append it to the
subject list. -/
def memberStep (g : Graph) (acc : List Node × List (Node × String))
    (t : Triple) : List Node × List (Node × String) :=
  (tmatch g (some t.o) (some RDF_TYPE_TERM) (some DATS_MATERIAL_TERM)).foldl
    (fun acc _ =>
      let names :=
        (tmatch g (some t.o) (some NAME_TERM) none).foldl
          (fun m t3 => dinsert m t.o t3.o) acc.2
      (acc.1 ++ [t.o], names))
    acc

/-- Lines 87-92 for one group, threading the global name map. -/
def groupMembers (g : Graph) (sg : Node) (names0 : List (Node × String)) :
    List Node × List (Node × String) :=
  (tmatch g (some sg) (some HAS_MEMBER_TERM) none).foldl (memberStep g)
    ([], names0)

/-- Line 93's dict update for one group. -/
def subjectsStep (g : Graph)
    (st : List (Node × List Node) × List (Node × String)) (sg : Node) :
    List (Node × List Node) × List (Node × String) :=
  let inner := groupMembers g sg st.2
  (dinsert st.1 sg inner.1, inner.2)

/-- Lines 86-93: for each named group (in `study_group_to_name.keys()`
order) collect its `hasMember` targets typed `Material`; record every
name of the member (last wins) and append the member to the group's
subject list.  Returns `(study_group_to_subjects, subject_to_name)`. -/
def buildSubjects (g : Graph) (sgs : List Node) :
    List (Node × List Node) × List (Node × String) :=
  sgs.foldl (subjectsStep g) ([], [])

/-! ### Lines 108-139: Subject characteristics -/

/-- Lines 110-138, for one `hasQuality` target: the characteristic's
value terms (a missing value is padded with `None`), its two-hop names
and its two-hop dbGaP ids; the characteristic is kept (as name/value
pair) exactly when all three lists end up singletons, else the quality
node is dropped (`continue`; the `logging.fatal`/`sys.exit` after it is
unreachable). -/
def keepChar : List (Option String) → List String → List String →
    Option (String × String)
  | [v], [n], [_] => some (n, pyStr v)
  | _, _, _ => none

def charOfQuality (g : Graph) (q : Node) : Option (String × String) :=
  let charValues0 : List (Option String) :=
    (tmatch g (some q) (some DATA_ITEM_TERM) none).map (fun t => some t.o)
  let charNames := twoHopValues g q NAME_TERM SDO_VALUE_TERM
  let dbgapIds := twoHopValues g q CENTRAL_ID_TERM SDO_IDENT_TERM
  let charValues := if charValues0.isEmpty then [none] else charValues0
  keepChar charValues charNames dbgapIds

/-- One `hasQuality` edge of lines 110-138: keep or drop the
characteristic, accumulating the subject's dict and the global name
set. -/
def charStep (g : Graph) (acc : List (String × String) × List String)
    (t : Triple) : List (String × String) × List String :=
  match charOfQuality g t.o with
  | none => acc
  | some (n, v) => (dinsert acc.1 n v, insertNew acc.2 n)

/-- Lines 109-138 for one subject, threading the global name set. -/
def subjectCharsAcc (g : Graph) (s : Node) (names : List String) :
    List (String × String) × List String :=
  (tmatch g (some s) (some HAS_QUALITY_TERM) none).foldl (charStep g) ([], names)

/-- Lines 108-139: per-subject characteristic dict (keyed by name) and
the global ordered set of characteristic names.  Returns
`(subject_to_chars, all_char_names)`. -/
def buildChars (g : Graph) (subjects : List Node) :
    List (Node × List (String × String)) × List String :=
  subjects.foldl
    (fun st s =>
      let inner := subjectCharsAcc g s st.2
      (dinsert st.1 s inner.1, inner.2))
    ([], [])

/-! ### Lines 145-273: data files -/

structure FileInfo where
  anatomicalPartName : Option String
  anatomicalPartId : String
  s3URI : String
  gsURI : Option String
  datatype : String
  distribs : List (String × Option String)
  fileSize : Option String
  md5Checksum : Option String
deriving DecidableEq, Repr

/-- Lines 152-166: scan the Dataset's `hasPart` children typed
`Dimension`; when one is named `"MD5"` the checksum becomes its (possibly
missing) value, else it stays `"TBD"`. -/
def dimsMD5 (g : Graph) (d : Node) : Option String :=
  (tmatch g (some d) (some HAS_PART_TERM) none).foldl
    (fun md5 t =>
      (tmatch g (some t.o) (some RDF_TYPE_TERM) (some DATS_DIMENSION_TERM)).foldl
        (fun md5 _ =>
          let name := (twoHopValues g t.o NAME_TERM SDO_VALUE_TERM).getLast?
          let value :=
            ((tmatch g (some t.o) (some DATA_ITEM_TERM) none).map (·.o)).getLast?
          if name = some "MD5" then value else md5)
        md5)
    (some "TBD")

/-- The distribution-scan state `(s3_URI, gs_URI, file_size, distribs)`
of lines 146-150. -/
abbrev DState :=
  Option String × Option String × Option String × List (String × Option String)

/-- Lines 172-179, one size triple: keep the first size, abort on a
different later one. -/
def sizeStep (fs : Option String) (t2 : Triple) : Except Err (Option String) :=
  match fs with
  | none => .ok (some t2.o)
  | some v => if v ≠ t2.o then .error .sizeMismatch else .ok (some v)

/-- Lines 181-188, one `DataDownload` type assertion of distribution
`t.o`: record the URI under its scheme (later distributions
overwrite). -/
def ddStep (t : Triple) (st : DState) (_ : Triple) : DState :=
  if "gs://".data.isPrefixOf t.o.data then
    (st.1, some t.o, st.2.2.1, st.2.2.2 ++ [(t.o, st.2.2.1)])
  else if "s3://".data.isPrefixOf t.o.data then
    (some t.o, st.2.1, st.2.2.1, st.2.2.2 ++ [(t.o, st.2.2.1)])
  else st

/-- Lines 169-188 for one distribution: sizes first (may abort), then
the scheme scan. -/
def distribStep (g : Graph) (st : DState) (t : Triple) : Except Err DState :=
  match foldlE (tmatch g (some t.o) (some SDO_SIZE_TERM) none) st.2.2.1 sizeStep with
  | .error e => .error e
  | .ok sized =>
    .ok <|
      (tmatch g (some t.o) (some RDF_TYPE_TERM) (some SDO_DATA_DOWNLOAD_TERM)).foldl
        (ddStep t) (st.1, st.2.1, sized, st.2.2.2)

def distribScan (g : Graph) (d : Node) : Except Err DState :=
  foldlE (tmatch g (some d) (some SDO_DISTRIBUTIONS_TERM) none)
    (none, none, none, []) (distribStep g)

/-- Lines 191-195: `producedBy` targets typed DataAcquisition. -/
def dataAcqsOf (g : Graph) (d : Node) : List Node :=
  (tmatch g (some d) (some PRODUCED_BY_TERM) none).flatMap fun t =>
    (tmatch g (some t.o) (some RDF_TYPE_TERM) (some DATS_DATA_ACQUISITION_TERM)).map
      fun _ => t.o

/-- Lines 212-231: the sample's `derivesFrom` targets typed
`AnatomicalStructure`, each with its (last) name and its deduplicated
two-hop term ids, which must collapse to exactly one (the count message
concatenates `term_name`, so a missing name raises `TypeError` there). -/
def anatPartsOf (g : Graph) (sample : Node) :
    Except Err (List (Option String × String)) :=
  foldlE (tmatch g (some sample) (some DERIVES_FROM_TERM) none) [] fun parts t =>
    foldlE (tmatch g (some t.o) (some RDF_TYPE_TERM) (some SDO_ANATOMICAL_STRUCTURE_TERM))
      parts fun parts _ =>
      let termName := ((tmatch g (some t.o) (some NAME_TERM) none).map (·.o)).getLast?
      let tids := dedupKeepFirst (twoHopValues g t.o CENTRAL_ID_TERM CENTRAL_ID_TERM)
      match tids with
      | [tid] => .ok (parts ++ [(termName, tid)])
      | _ =>
        match termName with
        | none => .error .typeError
        | some _ => .error (.termIdCount tids.length)

/-- Lines 245-257: datatype classification.  Only a GTEx-titled run
classifies (`/wgs/` before `/rnaseq/`); the non-GTEx branch is
unconditionally fatal.  `re.search(..., None)` and `"..." + None` raise
`TypeError`.  On success also returns the S3 URI as a plain string. -/
def classify (projectName : String) (s3URI : Option String) :
    Except Err (String × String) :=
  if strContains projectName "GTEx" then
    match s3URI with
    | none => .error .typeError
    | some u =>
      if strContains u "/wgs/" then .ok ("WGS", u)
      else if strContains u "/rnaseq/" then .ok ("RNA-Seq", u)
      else .error (.unparsedSeqType u)
  else
    match s3URI with
    | none => .error .typeError
    | some u => .error (.unknownSeqType u)

/-- Lines 234-273, one `derivesFrom` target `t.o` of the sample (the
subject side): check there is exactly one anatomical part, classify the
datatype, and produce the (subject, FileInfo) link. -/
def sampleStep (g : Graph) (projectName : String)
    (s3URI gsURI fileSize md5 : Option String)
    (distribs : List (String × Option String))
    (parts : List (Option String × String))
    (pairs : List (Node × FileInfo)) (t : Triple) :
    Except Err (List (Node × FileInfo)) :=
  match parts with
  | [part] =>
    match classify projectName s3URI with
    | .error e => .error e
    | .ok (dt, u) =>
      .ok (pairs ++ [(t.o,
        { anatomicalPartName := part.1
          anatomicalPartId := part.2
          s3URI := u
          gsURI := gsURI
          datatype := dt
          distribs := distribs
          fileSize := fileSize
          md5Checksum := md5 })])
  | _ => .error (.anatPartCount parts.length)

/-- Lines 234-273, for one sample: first resolve the anatomical parts,
then run `sampleStep` over every `derivesFrom` target. -/
def samplePairs (g : Graph) (projectName : String)
    (s3URI gsURI fileSize md5 : Option String)
    (distribs : List (String × Option String)) (sample : Node) :
    Except Err (List (Node × FileInfo)) :=
  match anatPartsOf g sample with
  | .error e => .error e
  | .ok parts =>
    foldlE (tmatch g (some sample) (some DERIVES_FROM_TERM) none) []
      (sampleStep g projectName s3URI gsURI fileSize md5 distribs parts)

/-- Lines 209-273, one sample triple `tS` of the extract: append the
sample's links, propagating its abort. -/
def chainSampleStep (g : Graph) (projectName : String)
    (s3URI gsURI fileSize md5 : Option String)
    (distribs : List (String × Option String))
    (pairs : List (Node × FileInfo)) (tS : Triple) :
    Except Err (List (Node × FileInfo)) :=
  match samplePairs g projectName s3URI gsURI fileSize md5 distribs tS.o with
  | .error e => .error e
  | .ok more => .ok (pairs ++ more)

/-- Lines 203-273, one `hasInput` triple `tIn` of the DataAcquisition:
walk every sample the extract derives from. -/
def chainInputStep (g : Graph) (projectName : String)
    (s3URI gsURI fileSize md5 : Option String)
    (distribs : List (String × Option String))
    (pairs : List (Node × FileInfo)) (tIn : Triple) :
    Except Err (List (Node × FileInfo)) :=
  foldlE (tmatch g (some tIn.o) (some DERIVES_FROM_TERM) none) pairs
    (chainSampleStep g projectName s3URI gsURI fileSize md5 distribs)

/-- Lines 145-273, for one Dataset: checksum, distributions, the single
DataAcquisition (zero or several skip the Dataset), then the
input-extract / derives-from-sample chain producing subject-file
links. -/
def processDataset (g : Graph) (projectName : String) (d : Node) :
    Except Err (List (Node × FileInfo)) :=
  match distribScan g d with
  | .error e => .error e
  | .ok (s3URI, gsURI, fileSize, distribs) =>
    match dataAcqsOf g d with
    | [acq] =>
      foldlE (tmatch g (some acq) (some HAS_INPUT_TERM) none) []
        (chainInputStep g projectName s3URI gsURI fileSize (dimsMD5 g d) distribs)
    | _ => .ok []

/-- Lines 145-273, one Dataset: merge its (subject, file) links into
`subject_to_files`, propagating its abort. -/
def fileStep (g : Graph) (projectName : String)
    (stf : List (Node × List FileInfo)) (d : Node) :
    Except Err (List (Node × List FileInfo)) :=
  match processDataset g projectName d with
  | .error e => .error e
  | .ok pairs => .ok (pairs.foldl (fun m sf => dappend m sf.1 sf.2) stf)

/-- Lines 145-273 over all Datasets: `subject_to_files`. -/
def filePhase (g : Graph) (projectName : String) (ds : List Node) :
    Except Err (List (Node × List FileInfo)) :=
  foldlE ds [] (fileStep g projectName)

/-! ### Lines 275-347: tabular output -/

abbrev Row := List String

def fixedHeadCols : List String :=
  ["Project", "dbGaP_Study", "Study_Group", "Subject_ID"]

def fixedTailCols : List String :=
  ["Anatomical_Part", "Anatomical_Part_ID", "Datatype", "File_Size",
   "MD5_Checksum", "AWS_URI", "GCP_URI"]

/-- Lines 276-281: fixed leading columns, the sorted characteristic
names, fixed trailing columns. -/
def headerCols (sortedCharNames : List String) : List String :=
  fixedHeadCols ++ sortedCharNames ++ fixedTailCols

/-- Lines 305-309: one cell per sorted characteristic name; a subject
lacking the characteristic renders the empty string. -/
def charCells (chars : List (String × String)) (names : List String) :
    List String :=
  names.map fun k =>
    match dlookup chars k with
    | some v => v
    | none => ""

/-- `"\t".join(col_vals)` where some values may be Python `None`:
joining a `None` raises `TypeError`, so the row only prints when every
cell is a string. -/
def emitRow (cells : List (Option String)) : Except Err Row :=
  match cells.mapM id with
  | none => .error .typeError
  | some r => .ok r

/-- Line 321's sort key: the composite tuple
`(anatomical_part_name, datatype, S3_URI)` compared as Python compares
tuples (`None` sorts as smaller only against `None`; comparing `None`
with a string is a `TypeError`, handled in `sortFilesM`). -/
def optStrCmp : Option String → Option String → Ordering
  | none, none => .eq
  | none, some _ => .lt
  | some _, none => .gt
  | some a, some b => strCmp a.data b.data

def fileCmp (f1 f2 : FileInfo) : Ordering :=
  (optStrCmp f1.anatomicalPartName f2.anatomicalPartName).then
    ((strCmp f1.datatype.data f2.datatype.data).then
      (strCmp f1.s3URI.data f2.s3URI.data))

def fileLe (f1 f2 : FileInfo) : Bool :=
  match fileCmp f1 f2 with
  | .gt => false
  | _ => true

/-- Line 321: `data_files.sort(key=...)`.  A list mixing a `None`
anatomical-part name with a string one makes Python's sort compare
`None` against a `str`, raising `TypeError`; otherwise it is a stable
sort by the composite key. -/
def sortFilesM (files : List FileInfo) : Except Err (List FileInfo) :=
  if (files.any fun f => f.anatomicalPartName.isNone) &&
      (files.any fun f => f.anatomicalPartName.isSome) then
    .error .typeError
  else
    .ok (ssort fileLe files)

/-- Lines 323-347: the seven file-specific cells appended to a row. -/
def fileCells (f : FileInfo) : List (Option String) :=
  [f.anatomicalPartName, some f.anatomicalPartId, some f.datatype,
   f.fileSize, f.md5Checksum, some f.s3URI, f.gsURI]

/-- Emit rows one by one, keeping those printed before the first
abort. -/
def emitAll (f : α → Except Err Row) : List α → List Row × Option Err
  | [] => ([], none)
  | a :: l =>
    match f a with
    | .error e => ([], some e)
    | .ok r =>
      let rest := emitAll f l
      (r :: rest.1, rest.2)

/-- Accumulate the rows of consecutive render steps, stopping at the
first abort but keeping everything printed before it. -/
def accumRows (f : α → List Row × Option Err) : List α → List Row × Option Err
  | [] => ([], none)
  | a :: l =>
    match f a with
    | (rs, some e) => (rs, some e)
    | (rs, none) =>
      let rest := accumRows f l
      (rs ++ rest.1, rest.2)

/-- Lines 299-347, for one subject of a sorted group: its fixed and
characteristic columns, then either the single padded row (no files) or
one row per sorted file. -/
def renderSubject (scn : List String) (headerLen : Nat)
    (projectName datasetId groupName : String)
    (s2chars : List (Node × List (String × String)))
    (s2files : List (Node × List FileInfo)) (s : Node) (sName : String) :
    List Row × Option Err :=
  match dlookup s2chars s with
  | none => ([], some .keyError)
  | some chars =>
    let colVals := [projectName, datasetId, groupName, sName] ++ charCells chars scn
    match dlookup s2files s with
    | none => ([colVals ++ List.replicate (headerLen - colVals.length) ""], none)
    | some files =>
      match sortFilesM files with
      | .error e => ([], some e)
      | .ok sorted => emitAll (fun f => emitRow (colVals.map some ++ fileCells f)) sorted

/-- Lines 293-347, for one group of a sorted dataset: look up and sort
its subjects by name (an unnamed subject raises `KeyError` in the sort
key), then render each subject. -/
def renderGroup (scn : List String) (headerLen : Nat)
    (projectName datasetId groupName : String)
    (sg2subj : List (Node × List Node)) (s2name : List (Node × String))
    (s2chars : List (Node × List (String × String)))
    (s2files : List (Node × List FileInfo)) (sg : Node) :
    List Row × Option Err :=
  match dlookup sg2subj sg with
  | none => ([], some .keyError)
  | some subjects =>
    match sortByKeyM (fun x => dlookup s2name x) strLeB subjects with
    | .error e => ([], some e)
    | .ok sortedSubjects =>
      accumRows
        (fun p =>
          renderSubject scn headerLen projectName datasetId groupName
            s2chars s2files p.1 p.2)
        sortedSubjects

/-- Lines 286-347, for one dataset of the sorted dataset list: its study,
the study's groups sorted by name, then each group. -/
def renderDataset (scn : List String) (headerLen : Nat)
    (projectName : String) (ds2study : List (Node × Node))
    (st2groups : List (Node × List Node)) (sg2name : List (Node × String))
    (sg2subj : List (Node × List Node)) (s2name : List (Node × String))
    (s2chars : List (Node × List (String × String)))
    (s2files : List (Node × List FileInfo)) (d : Node) (datasetId : String) :
    List Row × Option Err :=
  match dlookup ds2study d with
  | none => ([], some .keyError)
  | some study =>
    match dlookup st2groups study with
    | none => ([], some .keyError)
    | some groups =>
      match sortByKeyM (fun x => dlookup sg2name x) strLeB groups with
      | .error e => ([], some e)
      | .ok sortedGroups =>
        accumRows
          (fun p =>
            renderGroup scn headerLen projectName datasetId p.2
              sg2subj s2name s2chars s2files p.1)
          sortedGroups

/-! ### Lines 16-347: the whole run -/

/-- Line 58's input: Datasets with both an identifier and a Study. -/
def ds2studyOf (g : Graph) : List (Node × Node) :=
  buildDsToStudy g (datasetsWithId g)

/-- Line 65: the Datasets that get rendered. -/
def datasetsLinked (g : Graph) : List Node :=
  (datasetsWithId g).filter fun d => dcontains (ds2studyOf g) d

/-- Lines 68-81 applied to the run's studies. -/
def grpsOf (g : Graph) : List (Node × List Node) × List (Node × String) :=
  buildGroups g (dvalues (ds2studyOf g))

/-- Lines 84-93 applied to the run's named groups. -/
def subjOf (g : Graph) : List (Node × List Node) × List (Node × String) :=
  buildSubjects g (dkeys (grpsOf g).2)

/-- Lines 108-139 applied to the run's named subjects. -/
def chrsOf (g : Graph) : List (Node × List (String × String)) × List String :=
  buildChars g (dkeys (subjOf g).2)

/-- Line 141: `sorted_char_names`. -/
def scnOf (g : Graph) : List String :=
  ssort strLeB (chrsOf g).2

/-- The pipeline on an already deduplicated triple list.  Returns the
lines printed to standard output (header first) and the abort, if any,
that ended the process with a non-zero exit status. -/
def runG (g : Graph) : List Row × Option Err :=
  match tlTitlePairs g (allDatasets g) with
  | [(_, projectName)] =>
    let scn := scnOf g
    match filePhase g projectName (allDatasets g) with
    | .error e => ([], some e)
    | .ok s2files =>
      let header := headerCols scn
      match sortByKeyM (fun x => dlookup (datasetIdsOf g) x) strLeB (datasetsLinked g) with
      | .error e => ([header], some e)
      | .ok sortedDs =>
        let body :=
          accumRows
            (fun p =>
              renderDataset scn header.length projectName (ds2studyOf g) (grpsOf g).1
                (grpsOf g).2 (subjOf g).1 (subjOf g).2 (chrsOf g).1 s2files p.1 p.2)
            sortedDs
        (header :: body.1, body.2)
  | tl => ([], some (.topLevelCount tl.length))

/-- The whole program on an arbitrary enumeration of the triple set. -/
def run (g0 : List Triple) : List Row × Option Err :=
  runG g0.dedup

/-- A Dataset whose title matches one of the two known project title
literals. -/
def matchesKnownTitle (g : Graph) (d : Node) : Bool :=
  titles.any fun tt => !(tmatch g (some d) (some TITLE_TERM) (some tt)).isEmpty

/-- The graph refuting C4: quality node `Q` of subject `M` has exactly
one (two-hop) name `"sex"`, exactly one dbGaP id, and **zero** value
terms. -/
def c4Graph : List Triple :=
  [⟨"M", HAS_QUALITY_TERM, "Q"⟩,
   ⟨"Q", NAME_TERM, "QN"⟩,
   ⟨"QN", SDO_VALUE_TERM, "sex"⟩,
   ⟨"Q", CENTRAL_ID_TERM, "QC"⟩,
   ⟨"QC", SDO_IDENT_TERM, "phv1"⟩]

/-- Witness for the amended C4 on a concrete graph with one complete
quality node: the iff yields that the characteristic is kept. -/
def c4WitnessGraph : List Triple :=
  [⟨"M", HAS_QUALITY_TERM, "Q"⟩,
   ⟨"Q", DATA_ITEM_TERM, "female"⟩,
   ⟨"Q", NAME_TERM, "QN"⟩,
   ⟨"QN", SDO_VALUE_TERM, "sex"⟩,
   ⟨"Q", CENTRAL_ID_TERM, "QC"⟩,
   ⟨"QC", SDO_IDENT_TERM, "phv1"⟩]

/-- Witness graph for the amended C6: a GTEx run whose single Dataset
has a complete acquisition chain and an S3 URI matching neither
pattern. -/
def c6WitnessGraph : List Triple :=
  [⟨"D", RDF_TYPE_TERM, DATS_DATASET_TERM⟩,
   ⟨"D", TITLE_TERM, gtexTitle⟩,
   ⟨"D", SDO_DISTRIBUTIONS_TERM, "s3://bucket/other/f.cram"⟩,
   ⟨"s3://bucket/other/f.cram", RDF_TYPE_TERM, SDO_DATA_DOWNLOAD_TERM⟩,
   ⟨"D", PRODUCED_BY_TERM, "ACQ"⟩,
   ⟨"ACQ", RDF_TYPE_TERM, DATS_DATA_ACQUISITION_TERM⟩,
   ⟨"ACQ", HAS_INPUT_TERM, "EXT"⟩,
   ⟨"EXT", DERIVES_FROM_TERM, "SAMP"⟩,
   ⟨"SAMP", DERIVES_FROM_TERM, "AP"⟩,
   ⟨"AP", RDF_TYPE_TERM, SDO_ANATOMICAL_STRUCTURE_TERM⟩,
   ⟨"AP", NAME_TERM, "Liver"⟩,
   ⟨"AP", CENTRAL_ID_TERM, "APC"⟩,
   ⟨"APC", CENTRAL_ID_TERM, "UBERON:1"⟩,
   ⟨"SAMP", DERIVES_FROM_TERM, "SUBJ"⟩]

/-- All size values the Dataset's distributions report, in scan order
(lines 169-173). -/
def sizesOf (g : Graph) (d : Node) : List String :=
  (tmatch g (some d) (some SDO_DISTRIBUTIONS_TERM) none).flatMap fun t =>
    (tmatch g (some t.o) (some SDO_SIZE_TERM) none).map (·.o)

/-- The running `file_size` check of lines 172-179, abstracted over the
sequence of size values. -/
def scanSizes : Option String → List String → Except Err (Option String)
  | fs, [] => .ok fs
  | none, s :: l => scanSizes (some s) l
  | some v, s :: l => if v ≠ s then .error .sizeMismatch else scanSizes (some v) l

/-- The abort kinds the rendering loop can raise: unguarded dict lookups
and `None`-in-`str.join` / `None`-in-sort errors. -/
def isRenderErr (e : Err) : Prop := e = .keyError ∨ e = .typeError

/-- Witness graph for C5: one GTEx-titled Dataset whose distribution
reports sizes `"100"` and `"200"`. -/
def c5WitnessGraph : List Triple :=
  [⟨"D", RDF_TYPE_TERM, DATS_DATASET_TERM⟩,
   ⟨"D", TITLE_TERM, gtexTitle⟩,
   ⟨"D", SDO_DISTRIBUTIONS_TERM, "DD"⟩,
   ⟨"DD", SDO_SIZE_TERM, "100"⟩,
   ⟨"DD", SDO_SIZE_TERM, "200"⟩]

/-- Witness graph for C10: a complete TOPMed-titled chain. -/
def c10WitnessGraph : List Triple :=
  [⟨"D", RDF_TYPE_TERM, DATS_DATASET_TERM⟩,
   ⟨"D", TITLE_TERM, topmedTitle⟩,
   ⟨"D", SDO_DISTRIBUTIONS_TERM, "s3://bucket/wgs/f.cram"⟩,
   ⟨"s3://bucket/wgs/f.cram", RDF_TYPE_TERM, SDO_DATA_DOWNLOAD_TERM⟩,
   ⟨"D", PRODUCED_BY_TERM, "ACQ"⟩,
   ⟨"ACQ", RDF_TYPE_TERM, DATS_DATA_ACQUISITION_TERM⟩,
   ⟨"ACQ", HAS_INPUT_TERM, "EXT"⟩,
   ⟨"EXT", DERIVES_FROM_TERM, "SAMP"⟩,
   ⟨"SAMP", DERIVES_FROM_TERM, "AP"⟩,
   ⟨"AP", RDF_TYPE_TERM, SDO_ANATOMICAL_STRUCTURE_TERM⟩,
   ⟨"AP", NAME_TERM, "Liver"⟩,
   ⟨"AP", CENTRAL_ID_TERM, "APC"⟩,
   ⟨"APC", CENTRAL_ID_TERM, "UBERON:1"⟩,
   ⟨"SAMP", DERIVES_FROM_TERM, "SUBJ"⟩]

/-- The member list a group collects, lines 87-92. -/
def msList (g : Graph) (sg : Node) : List Node :=
  (tmatch g (some sg) (some HAS_MEMBER_TERM) none).flatMap fun t =>
    (tmatch g (some t.o) (some RDF_TYPE_TERM) (some DATS_MATERIAL_TERM)).map
      fun _ => t.o

/-- Witness graph for C9: group `G1` has a named member `M1` and a
nameless Material member `M3`. -/
def c9WitnessGraph : List Triple :=
  [⟨"D", RDF_TYPE_TERM, DATS_DATASET_TERM⟩,
   ⟨"D", TITLE_TERM, gtexTitle⟩,
   ⟨"D", CENTRAL_ID_TERM, "I"⟩,
   ⟨"I", SDO_IDENT_TERM, "phs1"⟩,
   ⟨"D", PRODUCED_BY_TERM, "ST"⟩,
   ⟨"ST", RDF_TYPE_TERM, DATS_STUDY_TERM⟩,
   ⟨"ST", HAS_PART_TERM, "G1"⟩,
   ⟨"G1", RDF_TYPE_TERM, DATS_STUDY_GROUP_TERM⟩,
   ⟨"G1", NAME_TERM, "Group1"⟩,
   ⟨"G1", HAS_MEMBER_TERM, "M1"⟩,
   ⟨"M1", RDF_TYPE_TERM, DATS_MATERIAL_TERM⟩,
   ⟨"M1", NAME_TERM, "S1"⟩,
   ⟨"G1", HAS_MEMBER_TERM, "M3"⟩,
   ⟨"M3", RDF_TYPE_TERM, DATS_MATERIAL_TERM⟩]

/-- The three laws the sort proofs need of a three-way comparator:
antisymmetry under `swap`, transitivity of `lt`, and substitutivity of
`eq`. -/
def LawfulCmp {α : Type} (c : α → α → Ordering) : Prop :=
  (∀ a b, c a b = (c b a).swap) ∧
  (∀ a b d, c a b = .lt → c b d = .lt → c a d = .lt) ∧
  (∀ a b, c a b = .eq → ∀ d, c a d = c b d)

/-- `cmpLe o` is the `≤` reading of a comparison outcome. -/
def cmpLe (o : Ordering) : Bool :=
  match o with
  | .gt => false
  | _ => true

def c3WitnessGraph : List Triple :=
  [⟨"D1", RDF_TYPE_TERM, DATS_DATASET_TERM⟩,
   ⟨"D1", TITLE_TERM, gtexTitle⟩,
   ⟨"D1", CENTRAL_ID_TERM, "I1"⟩,
   ⟨"I1", SDO_IDENT_TERM, "phs2"⟩,
   ⟨"D1", PRODUCED_BY_TERM, "ST1"⟩,
   ⟨"ST1", RDF_TYPE_TERM, DATS_STUDY_TERM⟩,
   ⟨"ST1", HAS_PART_TERM, "Ga"⟩,
   ⟨"Ga", RDF_TYPE_TERM, DATS_STUDY_GROUP_TERM⟩,
   ⟨"Ga", NAME_TERM, "b"⟩,
   ⟨"ST1", HAS_PART_TERM, "Gb"⟩,
   ⟨"Gb", RDF_TYPE_TERM, DATS_STUDY_GROUP_TERM⟩,
   ⟨"Gb", NAME_TERM, "a"⟩,
   ⟨"Ga", HAS_MEMBER_TERM, "M1"⟩,
   ⟨"M1", RDF_TYPE_TERM, DATS_MATERIAL_TERM⟩,
   ⟨"M1", NAME_TERM, "y"⟩,
   ⟨"Gb", HAS_MEMBER_TERM, "M2"⟩,
   ⟨"M2", RDF_TYPE_TERM, DATS_MATERIAL_TERM⟩,
   ⟨"M2", NAME_TERM, "x"⟩,
   ⟨"D2", RDF_TYPE_TERM, DATS_DATASET_TERM⟩,
   ⟨"D2", TITLE_TERM, "zzz"⟩,
   ⟨"D2", CENTRAL_ID_TERM, "I2"⟩,
   ⟨"I2", SDO_IDENT_TERM, "phs1"⟩,
   ⟨"D2", PRODUCED_BY_TERM, "ST2"⟩,
   ⟨"ST2", RDF_TYPE_TERM, DATS_STUDY_TERM⟩,
   ⟨"ST2", HAS_PART_TERM, "Gc"⟩,
   ⟨"Gc", RDF_TYPE_TERM, DATS_STUDY_GROUP_TERM⟩,
   ⟨"Gc", NAME_TERM, "c"⟩,
   ⟨"Gc", HAS_MEMBER_TERM, "M3"⟩,
   ⟨"M3", RDF_TYPE_TERM, DATS_MATERIAL_TERM⟩,
   ⟨"M3", NAME_TERM, "z"⟩]

def c7WitnessGraph : List Triple :=
  [⟨"D", RDF_TYPE_TERM, DATS_DATASET_TERM⟩,
   ⟨"D", TITLE_TERM, gtexTitle⟩,
   ⟨"D", CENTRAL_ID_TERM, "I"⟩,
   ⟨"I", SDO_IDENT_TERM, "phs1"⟩,
   ⟨"D", PRODUCED_BY_TERM, "ST"⟩,
   ⟨"ST", RDF_TYPE_TERM, DATS_STUDY_TERM⟩,
   ⟨"ST", HAS_PART_TERM, "G1"⟩,
   ⟨"G1", RDF_TYPE_TERM, DATS_STUDY_GROUP_TERM⟩,
   ⟨"G1", NAME_TERM, "g1"⟩,
   ⟨"G1", HAS_MEMBER_TERM, "M"⟩,
   ⟨"M", RDF_TYPE_TERM, DATS_MATERIAL_TERM⟩,
   ⟨"M", NAME_TERM, "S1"⟩,
   ⟨"M", HAS_QUALITY_TERM, "Q"⟩,
   ⟨"Q", NAME_TERM, "QN"⟩,
   ⟨"QN", SDO_VALUE_TERM, "sex"⟩,
   ⟨"Q", CENTRAL_ID_TERM, "QC"⟩,
   ⟨"QC", SDO_IDENT_TERM, "phv1"⟩,
   ⟨"Q", DATA_ITEM_TERM, "female"⟩]

/-- One Dataset, one Study, two StudyGroups `g1`/`g2` sharing the single
file-less Material subject `M` named `"S1"`. -/
def c2CexGraph : List Triple :=
  [⟨"D", RDF_TYPE_TERM, DATS_DATASET_TERM⟩,
   ⟨"D", TITLE_TERM, gtexTitle⟩,
   ⟨"D", CENTRAL_ID_TERM, "I"⟩,
   ⟨"I", SDO_IDENT_TERM, "phs1"⟩,
   ⟨"D", PRODUCED_BY_TERM, "ST"⟩,
   ⟨"ST", RDF_TYPE_TERM, DATS_STUDY_TERM⟩,
   ⟨"ST", HAS_PART_TERM, "G1"⟩,
   ⟨"G1", RDF_TYPE_TERM, DATS_STUDY_GROUP_TERM⟩,
   ⟨"G1", NAME_TERM, "g1"⟩,
   ⟨"ST", HAS_PART_TERM, "G2"⟩,
   ⟨"G2", RDF_TYPE_TERM, DATS_STUDY_GROUP_TERM⟩,
   ⟨"G2", NAME_TERM, "g2"⟩,
   ⟨"G1", HAS_MEMBER_TERM, "M"⟩,
   ⟨"G2", HAS_MEMBER_TERM, "M"⟩,
   ⟨"M", RDF_TYPE_TERM, DATS_MATERIAL_TERM⟩,
   ⟨"M", NAME_TERM, "S1"⟩]

/-! ## Supporting lemmas -/

/-- The (dataset, title) pairs one Dataset contributes to `tl_datasets`. -/
def perD (g : Graph) (d : Node) : List (Node × String) :=
  titles.flatMap fun tt =>
    (tmatch g (some d) (some TITLE_TERM) (some tt)).map fun _ => (d, tt)

theorem tlTitlePairs_eq_flatMap (g : Graph) (ds : List Node) :
    tlTitlePairs g ds = ds.flatMap (perD g) := rfl

theorem perD_eq_nil_iff (g : Graph) (d : Node) :
    perD g d = [] ↔ matchesKnownTitle g d = false := by
  simp [perD, matchesKnownTitle, List.flatMap_eq_nil_iff, List.map_eq_nil_iff,
    List.any_eq_false, List.isEmpty_iff]

/-- Each matching Dataset contributes at least one (dataset, title) pair,
and non-matching Datasets contribute none. -/
theorem countP_title_le (g : Graph) (ds : List Node) :
    ds.countP (matchesKnownTitle g) ≤ (tlTitlePairs g ds).length ∧
      (ds.countP (matchesKnownTitle g) = 0 → tlTitlePairs g ds = []) := by
  induction ds with
  | nil => exact ⟨Nat.le_refl _, fun _ => rfl⟩
  | cons d ds ih =>
    have hcons : tlTitlePairs g (d :: ds) = perD g d ++ tlTitlePairs g ds := by
      rw [tlTitlePairs_eq_flatMap, List.flatMap_cons, tlTitlePairs_eq_flatMap]
    rw [hcons, List.countP_cons, List.length_append]
    rcases hm : matchesKnownTitle g d with _ | _
    · have hnil : perD g d = [] := (perD_eq_nil_iff g d).2 hm
      rw [hnil]
      refine ⟨by simpa using ih.1, fun h0 => ?_⟩
      simp only [List.length_nil, List.nil_append]
      exact ih.2 (by omega)
    · have hne : perD g d ≠ [] := by
        intro hcontra
        have := (perD_eq_nil_iff g d).1 hcontra
        rw [hm] at this
        simp at this
      have hlen : 1 ≤ (perD g d).length :=
        Nat.one_le_iff_ne_zero.2 fun h0 => hne (List.eq_nil_of_length_eq_zero h0)
      have h1 := ih.1
      simp only [hm, if_true, if_pos]
      exact ⟨by omega, fun h0 => absurd h0 (by omega)⟩

/-- When the (dataset, title) pair list is not a singleton, the script
exits at line 55 with the count diagnostic before printing anything. -/
theorem runG_topLevel_fatal (g : Graph)
    (h : (tlTitlePairs g (allDatasets g)).length ≠ 1) :
    runG g = ([], some (.topLevelCount (tlTitlePairs g (allDatasets g)).length)) := by
  rcases htl : tlTitlePairs g (allDatasets g) with _ | ⟨⟨d, t⟩, rest⟩
  · simp [runG, htl]
  · rcases rest with _ | ⟨p2, rest2⟩
    · rw [htl] at h
      simp at h
    · simp [runG, htl]

/-! ## Claim C1 -/

/-- **C1.**  If the number of Datasets whose title matches one of the two
known project title literals is not exactly one, the run aborts with the
fatal `"found N top-level DATS Datasets"` diagnostic (line 54) and a
non-zero exit status, before any header or data row is emitted, for every
input graph — zero matches and two or more matches included.  The count
`N` the diagnostic reports is the length of the (dataset, title) match
list, which the second conjunct shows is itself never `1` under the
hypothesis. -/
theorem c1_top_level_count_fatal (g0 : List Triple)
    (h : (allDatasets g0.dedup).countP (matchesKnownTitle g0.dedup) ≠ 1) :
    run g0 =
      ([], some (.topLevelCount (tlTitlePairs g0.dedup (allDatasets g0.dedup)).length)) ∧
    (tlTitlePairs g0.dedup (allDatasets g0.dedup)).length ≠ 1 := by
  have hcount := countP_title_le g0.dedup (allDatasets g0.dedup)
  have hne : (tlTitlePairs g0.dedup (allDatasets g0.dedup)).length ≠ 1 := by
    rcases Nat.lt_or_ge ((allDatasets g0.dedup).countP (matchesKnownTitle g0.dedup)) 1 with hlt | hge
    · have h0 : (allDatasets g0.dedup).countP (matchesKnownTitle g0.dedup) = 0 := by omega
      rw [hcount.2 h0]
      simp
    · have h2 : 2 ≤ (allDatasets g0.dedup).countP (matchesKnownTitle g0.dedup) := by omega
      have := hcount.1
      omega
  exact ⟨runG_topLevel_fatal g0.dedup hne, hne⟩

/-- Witness for C1 at the empty graph: zero Datasets match, and the run
aborts with `"found 0 top-level DATS Datasets"` having printed nothing. -/
theorem c1_top_level_count_fatal_witness :
    (allDatasets ([] : List Triple).dedup).countP (matchesKnownTitle [].dedup) ≠ 1 ∧
      run [] = ([], some (.topLevelCount 0)) := by
  refine ⟨by decide, ?_⟩
  have := (c1_top_level_count_fatal [] (by decide)).1
  simpa using this

/-! ## Claim C4 -/

theorem keepChar_isSome_iff (a : List (Option String)) (b c : List String) :
    (keepChar a b c).isSome ↔ a.length = 1 ∧ b.length = 1 ∧ c.length = 1 := by
  rcases a with _ | ⟨a0, _ | ⟨a1, as_⟩⟩ <;>
    rcases b with _ | ⟨b0, _ | ⟨b1, bs⟩⟩ <;>
      rcases c with _ | ⟨c0, _ | ⟨c1, cs⟩⟩ <;> simp [keepChar]

/-- A quality node is kept exactly when its name and dbGaP id resolve to
one value each and it carries at most one value term (a missing value is
padded, line 128). -/
theorem charOfQuality_isSome_iff (g : Graph) (q : Node) :
    (charOfQuality g q).isSome ↔
      (twoHopValues g q NAME_TERM SDO_VALUE_TERM).length = 1 ∧
      (twoHopValues g q CENTRAL_ID_TERM SDO_IDENT_TERM).length = 1 ∧
      (tmatch g (some q) (some DATA_ITEM_TERM) none).length ≤ 1 := by
  rcases hv : tmatch g (some q) (some DATA_ITEM_TERM) none with _ | ⟨v0, vs⟩
  · unfold charOfQuality
    rw [hv]
    simp [keepChar_isSome_iff]
  · unfold charOfQuality
    rw [hv]
    simp [keepChar_isSome_iff]
    tauto

/-- A quality node with no value term but a unique name and id is kept
with the Python placeholder string `"None"` as its value. -/
theorem charOfQuality_none_value (g : Graph) (q : Node) (n : String)
    (hv : tmatch g (some q) (some DATA_ITEM_TERM) none = [])
    (hn : twoHopValues g q NAME_TERM SDO_VALUE_TERM = [n])
    (hi : (twoHopValues g q CENTRAL_ID_TERM SDO_IDENT_TERM).length = 1) :
    charOfQuality g q = some (n, "None") := by
  rcases List.length_eq_one.1 hi with ⟨i, hi'⟩
  unfold charOfQuality
  rw [hv, hn, hi']
  rfl

theorem mem_insertNew [DecidableEq α] {l : List α} {a : α} (b : α)
    (h : a ∈ l) : a ∈ insertNew l b := by
  unfold insertNew
  by_cases hb : b ∈ l <;> simp [hb, h]

/-- The global characteristic-name set only grows while quality edges of
one subject are processed. -/
theorem charStep_names_mono (g : Graph) :
    ∀ (ts : List Triple) (acc : List (String × String) × List String)
      (n : String), n ∈ acc.2 → n ∈ (ts.foldl (charStep g) acc).2 := by
  intro ts
  induction ts with
  | nil => intro acc n h; exact h
  | cons t ts ih =>
    intro acc n h
    rw [List.foldl_cons]
    apply ih
    unfold charStep
    rcases charOfQuality g t.o with _ | ⟨n', v'⟩
    · exact h
    · exact mem_insertNew _ h

/-- The global characteristic-name set only grows as further subjects
are processed: dropping one subject's quality node never removes a
column contributed elsewhere. -/
theorem buildChars_names_mono (g : Graph) (ss : List Node) (s : Node)
    (n : String) (h : n ∈ (buildChars g ss).2) :
    n ∈ (buildChars g (ss ++ [s])).2 := by
  unfold buildChars at h ⊢
  rw [List.foldl_append]
  exact charStep_names_mono g _ _ n h

/-- **C4, counterexample.**  The quality node `Q` has zero value terms —
its value does *not* resolve to exactly one value — yet it is kept in the
subject's characteristic set, with the placeholder value `"None"`:
line 128 pads an empty value list with Python `None` before the
"exactly one" test, so the claimed iff fails in the only-if direction. -/
theorem c4_kept_iff_counterexample :
    (tmatch c4Graph (some "Q") (some DATA_ITEM_TERM) none).length = 0 ∧
      charOfQuality c4Graph "Q" = some ("sex", "None") ∧
      (buildChars c4Graph ["M"]).1 = [("M", [("sex", "None")])] ∧
      (buildChars c4Graph ["M"]).2 = ["sex"] := by
  decide

/-- **C4, amended.**  For every Subject's quality node: the
characteristic is kept iff its name and its external id each resolve to
exactly one value and its value to *at most* one (a quality node with no
value term is kept with the placeholder value string `"None"`); a
quality node failing these checks is dropped without aborting (the
fatal call after the `continue` at line 131 is unreachable, so the
whole characteristics pass is total), and dropping never removes a
name already accumulated in the global column set. -/
theorem c4_kept_iff_amended (g : Graph) (q : Node) :
    ((charOfQuality g q).isSome ↔
      (twoHopValues g q NAME_TERM SDO_VALUE_TERM).length = 1 ∧
      (twoHopValues g q CENTRAL_ID_TERM SDO_IDENT_TERM).length = 1 ∧
      (tmatch g (some q) (some DATA_ITEM_TERM) none).length ≤ 1) ∧
    (∀ n : String,
      tmatch g (some q) (some DATA_ITEM_TERM) none = [] →
      twoHopValues g q NAME_TERM SDO_VALUE_TERM = [n] →
      (twoHopValues g q CENTRAL_ID_TERM SDO_IDENT_TERM).length = 1 →
      charOfQuality g q = some (n, "None")) ∧
    (∀ (ss : List Node) (s : Node) (n : String),
      n ∈ (buildChars g ss).2 → n ∈ (buildChars g (ss ++ [s])).2) :=
  ⟨charOfQuality_isSome_iff g q,
   fun n hv hn hi => charOfQuality_none_value g q n hv hn hi,
   fun ss s n h => buildChars_names_mono g ss s n h⟩

theorem c4_kept_iff_amended_witness :
    (charOfQuality c4WitnessGraph "Q").isSome = true := by
  rw [(c4_kept_iff_amended c4WitnessGraph "Q").1]
  decide

/-! ## Fatal-error propagation through the per-dataset fold -/

/-- If some element of the fold makes the step abort regardless of the
accumulated state, the whole fold aborts (possibly with an earlier
element's abort). -/
theorem foldlE_error_of_mem {f : σ → α → Except Err σ} {d : α}
    (hf : ∀ st', ∃ e, f st' d = .error e) :
    ∀ (l : List α) (st : σ), d ∈ l → ∃ e, foldlE l st f = .error e := by
  intro l
  induction l with
  | nil => intro st h; cases h
  | cons a l ih =>
    intro st h
    rcases hfa : f st a with e | st'
    · exact ⟨e, by simp [foldlE, hfa]⟩
    · rcases List.mem_cons.1 h with rfl | hmem
      · rcases hf st with ⟨e, he⟩
        rw [hfa] at he
        cases he
      · rcases ih st' hmem with ⟨e, he⟩
        exact ⟨e, by simp [foldlE, hfa, he]⟩

/-- A Dataset whose processing aborts makes the whole file phase abort
(the earliest aborting Dataset decides the message). -/
theorem filePhase_error_of_processDataset (g : Graph) (pn : String)
    (ds : List Node) (d : Node) (e : Err) (hd : d ∈ ds)
    (hp : processDataset g pn d = .error e) :
    ∃ e', filePhase g pn ds = .error e' := by
  unfold filePhase
  exact foldlE_error_of_mem (fun st' => ⟨e, by simp [fileStep, hp]⟩) ds [] hd

/-- With the single top-level Dataset resolved, a file-phase abort ends
the run before anything is printed. -/
theorem runG_filePhase_fatal (g : Graph) (d0 : Node) (pn : String) (e : Err)
    (htl : tlTitlePairs g (allDatasets g) = [(d0, pn)])
    (hfp : filePhase g pn (allDatasets g) = .error e) :
    runG g = ([], some e) := by
  simp [runG, htl, hfp]

/-! ## Claim C6 -/

/-- **C6, counterexample.**  In a GTEx-titled run an S3 URI containing
both `/wgs/` and `/rnaseq/` is classified `"WGS"`, because line 248
tests `/wgs/` first — refuting the claim that every URI containing
`/rnaseq/` is classified `"RNA-Seq"`. -/
theorem c6_gtex_classification_counterexample :
    strContains "s3://b/wgs/rnaseq/f" "/rnaseq/" = true ∧
      classify gtexTitle (some "s3://b/wgs/rnaseq/f") =
        .ok ("WGS", "s3://b/wgs/rnaseq/f") ∧
      ("WGS" : String) ≠ "RNA-Seq" := by
  refine ⟨by decide, ?_, by decide⟩
  decide

/-- **C6, amended.**  In a GTEx-titled run: a URI containing `/wgs/` is
classified `"WGS"`; a URI containing `/rnaseq/` *and not `/wgs/`* is
classified `"RNA-Seq"`; a URI containing neither is the fatal
`"couldn't parse seq type"` abort, and any Dataset whose processing hits
that abort ends the whole run with a non-zero exit before any output. -/
theorem c6_gtex_classification_amended (pn : String) (uri : String)
    (hg : strContains pn "GTEx" = true) :
    (strContains uri "/wgs/" = true →
      classify pn (some uri) = .ok ("WGS", uri)) ∧
    (strContains uri "/wgs/" = false → strContains uri "/rnaseq/" = true →
      classify pn (some uri) = .ok ("RNA-Seq", uri)) ∧
    (strContains uri "/wgs/" = false → strContains uri "/rnaseq/" = false →
      classify pn (some uri) = .error (.unparsedSeqType uri)) ∧
    (∀ (g0 : List Triple) (d0 d : Node) (u : String),
      tlTitlePairs g0.dedup (allDatasets g0.dedup) = [(d0, pn)] →
      d ∈ allDatasets g0.dedup →
      processDataset g0.dedup pn d = .error (.unparsedSeqType u) →
      ∃ e, run g0 = ([], some e)) := by
  refine ⟨fun hw => ?_, fun hw hr => ?_, fun hw hr => ?_, ?_⟩
  · simp [classify, hg, hw]
  · simp [classify, hg, hw, hr]
  · simp [classify, hg, hw, hr]
  · intro g0 d0 d u htl hd hp
    rcases filePhase_error_of_processDataset g0.dedup pn (allDatasets g0.dedup)
      d _ hd hp with ⟨e, he⟩
    exact ⟨e, runG_filePhase_fatal g0.dedup d0 pn e htl he⟩

/-! ## Claim C5: size scan characterization -/

theorem scanSizes_append (a b : List String) :
    ∀ fs, scanSizes fs (a ++ b) =
      match scanSizes fs a with
      | .error e => .error e
      | .ok fs' => scanSizes fs' b := by
  induction a with
  | nil => intro fs; rcases fs with _ | v <;> rfl
  | cons s rest ih =>
    intro fs
    rcases fs with _ | v
    · rw [List.cons_append]
      exact ih (some s)
    · simp only [List.cons_append, scanSizes]
      by_cases hv : v = s
      · rw [if_neg (by simp [hv]), if_neg (by simp [hv])]
        exact ih (some v)
      · rw [if_pos (by simp [hv]), if_pos (by simp [hv])]

theorem scanSizes_error_eq {fs : Option String} {l : List String} {e : Err}
    (h : scanSizes fs l = .error e) : e = .sizeMismatch := by
  induction l generalizing fs with
  | nil => rcases fs with _ | v <;> cases h
  | cons s rest ih =>
    rcases fs with _ | v
    · exact ih h
    · unfold scanSizes at h
      by_cases hv : v = s
      · rw [if_neg (by simp [hv])] at h
        exact ih h
      · rw [if_pos (by simp [hv])] at h
        cases h
        rfl

theorem scanSizes_some_error_iff (l : List String) (v : String) :
    (∃ e, scanSizes (some v) l = .error e) ↔ ∃ x ∈ l, x ≠ v := by
  induction l with
  | nil => simp [scanSizes]
  | cons s rest ih =>
    unfold scanSizes
    by_cases hv : v = s
    · subst hv
      rw [if_neg (by simp)]
      simp only [ih, List.mem_cons]
      constructor
      · rintro ⟨x, hx, hxv⟩
        exact ⟨x, Or.inr hx, hxv⟩
      · rintro ⟨x, hx | hx, hxv⟩
        · exact absurd hx hxv
        · exact ⟨x, hx, hxv⟩
    · rw [if_pos (by simp [hv])]
      constructor
      · intro _
        exact ⟨s, List.mem_cons_self s rest, fun hsv => hv hsv.symm⟩
      · intro _
        exact ⟨.sizeMismatch, rfl⟩

theorem scanSizes_nil (fs : Option String) : scanSizes fs [] = .ok fs := by
  rcases fs with _ | v <;> rfl

theorem foldlE_nil {σ α : Type} (st : σ) (f : σ → α → Except Err σ) :
    foldlE [] st f = .ok st := rfl

theorem foldlE_cons {σ α : Type} (a : α) (l : List α) (st : σ)
    (f : σ → α → Except Err σ) :
    foldlE (a :: l) st f =
      match f st a with
      | .error e => .error e
      | .ok st' => foldlE l st' f := rfl

theorem foldlE_sizeStep_eq_scan (ts : List Triple) :
    ∀ fs, foldlE ts fs sizeStep = scanSizes fs (ts.map (·.o)) := by
  induction ts with
  | nil => intro fs; rw [List.map_nil, scanSizes_nil, foldlE_nil]
  | cons t ts ih =>
    intro fs
    rcases fs with _ | v
    · rw [foldlE_cons]
      have hs : sizeStep none t = .ok (some t.o) := rfl
      rw [hs, List.map_cons]
      exact ih (some t.o)
    · have hiff : scanSizes (some v) (t.o :: ts.map (·.o)) =
          if v ≠ t.o then (Except.error Err.sizeMismatch : Except Err (Option String))
          else scanSizes (some v) (ts.map (·.o)) := rfl
      by_cases hv : v = t.o
      · have hs : sizeStep (some v) t = .ok (some v) := by
          simp [sizeStep, hv]
        rw [foldlE_cons, hs, List.map_cons, hiff, if_neg (by simp [hv])]
        exact ih (some v)
      · have hs : sizeStep (some v) t = .error .sizeMismatch := by
          simp [sizeStep, hv]
        rw [foldlE_cons, hs, List.map_cons, hiff, if_pos (by simp [hv])]

theorem ddFold_preserves_size (t : Triple) (l : List Triple) :
    ∀ st : DState, (l.foldl (ddStep t) st).2.2.1 = st.2.2.1 := by
  induction l with
  | nil => intro st; rfl
  | cons x l ih =>
    intro st
    rw [List.foldl_cons, ih]
    unfold ddStep
    by_cases h1 : "gs://".data.isPrefixOf t.o.data
    · simp [h1]
    · by_cases h2 : "s3://".data.isPrefixOf t.o.data <;> simp [h1, h2]

/-- The distribution scan aborts exactly when the flat sequence of size
values does, and with the same (size-mismatch) message. -/
theorem distribScan_error_iff_scan (g : Graph) :
    ∀ (dists : List Triple) (st : DState) (e : Err),
      foldlE dists st (distribStep g) = .error e ↔
        scanSizes st.2.2.1
          (dists.flatMap fun t =>
            (tmatch g (some t.o) (some SDO_SIZE_TERM) none).map (·.o)) = .error e := by
  intro dists
  induction dists with
  | nil =>
    intro st e
    constructor
    · intro h; cases h
    · intro h
      rw [List.flatMap_nil, scanSizes_nil] at h
      cases h
  | cons t dists ih =>
    intro st e
    rw [List.flatMap_cons, scanSizes_append]
    rcases hscan : scanSizes st.2.2.1
        ((tmatch g (some t.o) (some SDO_SIZE_TERM) none).map (·.o)) with e0 | fs'
    · have hstep : distribStep g st t = .error e0 := by
        unfold distribStep
        rw [foldlE_sizeStep_eq_scan, hscan]
      have hL : foldlE (t :: dists) st (distribStep g) = .error e0 := by
        rw [foldlE_cons, hstep]
      rw [hL]
      simp [hscan]
    · have hstep : distribStep g st t =
          .ok ((tmatch g (some t.o) (some RDF_TYPE_TERM) (some SDO_DATA_DOWNLOAD_TERM)).foldl
            (ddStep t) (st.1, st.2.1, fs', st.2.2.2)) := by
        unfold distribStep
        rw [foldlE_sizeStep_eq_scan, hscan]
      have hL : foldlE (t :: dists) st (distribStep g) =
          foldlE dists
            ((tmatch g (some t.o) (some RDF_TYPE_TERM) (some SDO_DATA_DOWNLOAD_TERM)).foldl
              (ddStep t) (st.1, st.2.1, fs', st.2.2.2)) (distribStep g) := by
        rw [foldlE_cons, hstep]
      rw [hL, ih, ddFold_preserves_size]
      simp [hscan]

/-- The first abort of a fold came from some element's step. -/
theorem foldlE_error_inv {σ α : Type} {f : σ → α → Except Err σ} :
    ∀ (l : List α) (st : σ) (e : Err), foldlE l st f = .error e →
      ∃ st' a, a ∈ l ∧ f st' a = .error e := by
  intro l
  induction l with
  | nil => intro st e h; cases h
  | cons a l ih =>
    intro st e h
    rw [foldlE_cons] at h
    rcases hfa : f st a with e' | st'
    · rw [hfa] at h
      cases h
      exact ⟨st, a, List.mem_cons_self a l, hfa⟩
    · rw [hfa] at h
      rcases ih st' e h with ⟨st'', a', ha', hfa'⟩
      exact ⟨st'', a', List.mem_cons_of_mem a ha', hfa'⟩

theorem classify_error_ne_sizeMismatch (pn : String) (s3 : Option String)
    (e : Err) (h : classify pn s3 = .error e) : e ≠ .sizeMismatch := by
  unfold classify at h
  split at h
  · split at h
    · cases h; simp
    · split at h
      · cases h
      · split at h
        · cases h
        · cases h; simp
  · split at h
    · cases h; simp
    · cases h; simp

theorem anatPartsOf_error_ne_sizeMismatch (g : Graph) (sample : Node)
    (e : Err) (h : anatPartsOf g sample = .error e) : e ≠ .sizeMismatch := by
  unfold anatPartsOf at h
  rcases foldlE_error_inv _ _ _ h with ⟨parts, t, _, hstep⟩
  rcases foldlE_error_inv _ _ _ hstep with ⟨parts', t', _, hstep'⟩
  rcases htids : dedupKeepFirst
      (twoHopValues g t.o CENTRAL_ID_TERM CENTRAL_ID_TERM) with _ | ⟨tid, rest⟩
  · rw [htids] at hstep'
    rcases hname : ((tmatch g (some t.o) (some NAME_TERM) none).map (·.o)).getLast?
      with _ | n
    · rw [hname] at hstep'; cases hstep'; simp
    · rw [hname] at hstep'; cases hstep'; simp
  · rcases rest with _ | ⟨tid2, rest2⟩
    · rw [htids] at hstep'; cases hstep'
    · rw [htids] at hstep'
      rcases hname : ((tmatch g (some t.o) (some NAME_TERM) none).map (·.o)).getLast?
        with _ | n
      · rw [hname] at hstep'; cases hstep'; simp
      · rw [hname] at hstep'; cases hstep'; simp

theorem samplePairs_error_ne_sizeMismatch (g : Graph) (pn : String)
    (s3 gs fsz md5 : Option String) (distribs : List (String × Option String))
    (sample : Node) (e : Err)
    (h : samplePairs g pn s3 gs fsz md5 distribs sample = .error e) :
    e ≠ .sizeMismatch := by
  unfold samplePairs at h
  split at h
  next e' hap =>
    cases h
    exact anatPartsOf_error_ne_sizeMismatch g sample e hap
  next parts hap =>
    rcases foldlE_error_inv _ _ _ h with ⟨pairs, t, _, hstep⟩
    unfold sampleStep at hstep
    rcases parts with _ | ⟨part, rest⟩
    · cases hstep; simp
    · rcases rest with _ | ⟨part2, rest2⟩
      · rcases hcl : classify pn s3 with e'' | du
        · rw [hcl] at hstep
          cases hstep
          exact classify_error_ne_sizeMismatch pn s3 e hcl
        · rw [hcl] at hstep
          rcases du with ⟨dt, u⟩
          cases hstep
      · cases hstep; simp

/-- A `"file size mismatch"` abort can only originate in the
distribution scan of lines 169-179. -/
theorem processDataset_sizeMismatch_inv (g : Graph) (pn : String) (d : Node)
    (h : processDataset g pn d = .error .sizeMismatch) :
    distribScan g d = .error .sizeMismatch := by
  unfold processDataset at h
  split at h
  next e' hds =>
    cases h
    exact hds
  next s3 gs fsz distribs hds =>
    split at h
    · rcases foldlE_error_inv _ _ _ h with ⟨pairs, tIn, _, hstep⟩
      unfold chainInputStep at hstep
      rcases foldlE_error_inv _ _ _ hstep with ⟨pairs', tS, _, hstep'⟩
      unfold chainSampleStep at hstep'
      rcases hsp : samplePairs g pn s3 gs fsz (dimsMD5 g d) distribs tS.o
        with e'' | more
      rotate_left
      · rw [hsp] at hstep'
        cases hstep'
      · rw [hsp] at hstep'
        cases hstep'
        exact absurd rfl
          (samplePairs_error_ne_sizeMismatch g pn s3 gs fsz (dimsMD5 g d)
            distribs tS.o _ hsp)
    · cases h

/-- The size scan aborts exactly when two reported sizes differ. -/
theorem scanSizes_none_error_iff (l : List String) :
    (∃ e, scanSizes none l = .error e) ↔ ∃ a ∈ l, ∃ b ∈ l, a ≠ b := by
  rcases l with _ | ⟨s, rest⟩
  · simp [scanSizes]
  · show (∃ e, scanSizes (some s) rest = .error e) ↔ _
    rw [scanSizes_some_error_iff]
    constructor
    · rintro ⟨x, hx, hxs⟩
      exact ⟨x, List.mem_cons_of_mem s hx, s, List.mem_cons_self s rest, hxs⟩
    · rintro ⟨a, ha, b, hb, hab⟩
      rcases List.mem_cons.1 ha with rfl | ha'
      · rcases List.mem_cons.1 hb with rfl | hb'
        · exact absurd rfl hab
        · exact ⟨b, hb', fun h => hab h.symm⟩
      · by_cases has : a = s
        · subst has
          rcases List.mem_cons.1 hb with rfl | hb'
          · exact absurd rfl hab
          · exact ⟨b, hb', fun h => hab h.symm⟩
        · exact ⟨a, ha', has⟩

theorem emitRow_error (cells : List (Option String)) (e : Err)
    (h : emitRow cells = .error e) : e = .typeError := by
  unfold emitRow at h
  rcases hm : cells.mapM id with _ | r
  · rw [hm] at h; cases h; rfl
  · rw [hm] at h; cases h

theorem emitAll_error {f : α → Except Err Row} :
    ∀ (l : List α) (e : Err), (emitAll f l).2 = some e →
      ∃ a ∈ l, f a = .error e := by
  intro l
  induction l with
  | nil => intro e h; cases h
  | cons a l ih =>
    intro e h
    unfold emitAll at h
    rcases hfa : f a with e' | r
    · rw [hfa] at h
      cases h
      exact ⟨a, List.mem_cons_self a l, hfa⟩
    · rw [hfa] at h
      rcases ih e h with ⟨a', ha', hfa'⟩
      exact ⟨a', List.mem_cons_of_mem a ha', hfa'⟩

theorem accumRows_error {f : α → List Row × Option Err} :
    ∀ (l : List α) (e : Err), (accumRows f l).2 = some e →
      ∃ a ∈ l, (f a).2 = some e := by
  intro l
  induction l with
  | nil => intro e h; cases h
  | cons a l ih =>
    intro e h
    unfold accumRows at h
    rcases hfa : f a with ⟨rs, _ | e'⟩
    · rw [hfa] at h
      rcases ih e h with ⟨a', ha', hfa'⟩
      exact ⟨a', List.mem_cons_of_mem a ha', hfa'⟩
    · rw [hfa] at h
      cases h
      exact ⟨a, List.mem_cons_self a l, by rw [hfa]⟩

theorem sortFilesM_error (files : List FileInfo) (e : Err)
    (h : sortFilesM files = .error e) : e = .typeError := by
  unfold sortFilesM at h
  split at h
  · cases h; rfl
  · cases h

theorem sortByKeyM_error {α K : Type} (key : α → Option K) (le : K → K → Bool)
    (l : List α) (e : Err) (h : sortByKeyM key le l = .error e) :
    e = .keyError := by
  unfold sortByKeyM at h
  rcases hm : l.mapM fun a => (key a).map fun k => (a, k) with _ | pairs
  · rw [hm] at h; cases h; rfl
  · rw [hm] at h; cases h

theorem renderSubject_error (scn : List String) (headerLen : Nat)
    (pn did gn : String) (s2chars : List (Node × List (String × String)))
    (s2files : List (Node × List FileInfo)) (s : Node) (sName : String)
    (e : Err)
    (h : (renderSubject scn headerLen pn did gn s2chars s2files s sName).2 = some e) :
    isRenderErr e := by
  unfold renderSubject at h
  split at h
  · cases h; exact Or.inl rfl
  · split at h
    · cases h
    · split at h
      next e' heq =>
        cases h
        exact Or.inr (sortFilesM_error _ _ heq)
      next sorted heq =>
        rcases emitAll_error _ e h with ⟨f, _, hf'⟩
        exact Or.inr (emitRow_error _ e hf')

theorem renderGroup_error (scn : List String) (headerLen : Nat)
    (pn did gn : String) (sg2subj : List (Node × List Node))
    (s2name : List (Node × String))
    (s2chars : List (Node × List (String × String)))
    (s2files : List (Node × List FileInfo)) (sg : Node) (e : Err)
    (h : (renderGroup scn headerLen pn did gn sg2subj s2name s2chars
      s2files sg).2 = some e) : isRenderErr e := by
  unfold renderGroup at h
  split at h
  · cases h; exact Or.inl rfl
  · split at h
    next e' heq =>
      cases h
      exact Or.inl (sortByKeyM_error _ _ _ _ heq)
    next sorted heq =>
      rcases accumRows_error _ e h with ⟨p, _, hp⟩
      exact renderSubject_error scn headerLen pn did gn s2chars s2files
        p.1 p.2 e hp

theorem renderDataset_error (scn : List String) (headerLen : Nat)
    (pn : String) (ds2study : List (Node × Node))
    (st2groups : List (Node × List Node)) (sg2name : List (Node × String))
    (sg2subj : List (Node × List Node)) (s2name : List (Node × String))
    (s2chars : List (Node × List (String × String)))
    (s2files : List (Node × List FileInfo)) (d : Node) (did : String)
    (e : Err)
    (h : (renderDataset scn headerLen pn ds2study st2groups sg2name sg2subj
      s2name s2chars s2files d did).2 = some e) : isRenderErr e := by
  unfold renderDataset at h
  split at h
  · cases h; exact Or.inl rfl
  · split at h
    · cases h; exact Or.inl rfl
    · split at h
      next e' heq =>
        cases h
        exact Or.inl (sortByKeyM_error _ _ _ _ heq)
      next sorted heq =>
        rcases accumRows_error _ e h with ⟨p, _, hp⟩
        exact renderGroup_error scn headerLen pn did p.2 sg2subj s2name
          s2chars s2files p.1 e hp

/-- Every abort of the whole run is the top-level count, a file-phase
fatal, or a rendering `KeyError`/`TypeError`. -/
theorem runG_error_cases (g : Graph) (e : Err)
    (h : (runG g).2 = some e) :
    (∃ n, e = .topLevelCount n) ∨
    (∃ pn d0, tlTitlePairs g (allDatasets g) = [(d0, pn)] ∧
      filePhase g pn (allDatasets g) = .error e) ∨
    isRenderErr e := by
  unfold runG at h
  split at h
  next d0 pn heq =>
    split at h
    next e' heq2 =>
      cases h
      exact Or.inr (Or.inl ⟨pn, d0, heq, heq2⟩)
    next s2files heq2 =>
      split at h
      next e' heq3 =>
        cases h
        exact Or.inr (Or.inr (Or.inl (sortByKeyM_error _ _ _ _ heq3)))
      next sortedDs heq3 =>
        rcases accumRows_error _ e h with ⟨p, _, hp⟩
        exact Or.inr (Or.inr (renderDataset_error _ _ _ _ _ _ _ _ _ _
          p.1 p.2 e hp))
  next tl hne =>
    cases h
    exact Or.inl ⟨_, rfl⟩

theorem processDataset_error_of_distribScan (g : Graph) (pn : String)
    (d : Node) (e : Err) (h : distribScan g d = .error e) :
    processDataset g pn d = .error e := by
  unfold processDataset
  rw [h]

/-- The distribution scan of one Dataset aborts exactly when its flat
size sequence has a mismatch. -/
theorem distribScan_error_iff (g : Graph) (d : Node) (e : Err) :
    distribScan g d = .error e ↔
      scanSizes none (sizesOf g d) = .error e := by
  unfold distribScan sizesOf
  exact distribScan_error_iff_scan g _ (none, none, none, []) e

/-! ## Claim C5 -/

/-- **C5.**  For every graph: a Dataset two of whose reported
distribution sizes differ makes the distribution scan abort with the
fatal `"file size mismatch"`, and the whole run aborts with some fatal
before emitting anything; conversely, when every Dataset's reported
sizes all agree, the run never ends in the size-mismatch abort. -/
theorem c5_distribution_size_mismatch (g0 : List Triple) :
    (∀ d ∈ allDatasets g0.dedup,
      (∃ a ∈ sizesOf g0.dedup d, ∃ b ∈ sizesOf g0.dedup d, a ≠ b) →
        distribScan g0.dedup d = .error .sizeMismatch ∧
        ∃ e, run g0 = ([], some e)) ∧
    ((∀ d ∈ allDatasets g0.dedup,
        ∀ a ∈ sizesOf g0.dedup d, ∀ b ∈ sizesOf g0.dedup d, a = b) →
      (run g0).2 ≠ some .sizeMismatch) := by
  constructor
  · intro d hd hmm
    rcases (scanSizes_none_error_iff _).2 hmm with ⟨e0, he0⟩
    have he0' : e0 = Err.sizeMismatch := scanSizes_error_eq he0
    subst he0'
    have hds : distribScan g0.dedup d = .error .sizeMismatch :=
      (distribScan_error_iff _ _ _).2 he0
    refine ⟨hds, ?_⟩
    rcases htl : tlTitlePairs g0.dedup (allDatasets g0.dedup)
      with _ | ⟨⟨d0, pn⟩, rest⟩
    · exact ⟨_, runG_topLevel_fatal _ (by rw [htl]; simp)⟩
    · rcases rest with _ | ⟨q, rest2⟩
      · have hpd := processDataset_error_of_distribScan g0.dedup pn d _ hds
        rcases filePhase_error_of_processDataset g0.dedup pn
          (allDatasets g0.dedup) d _ hd hpd with ⟨e, he⟩
        exact ⟨e, runG_filePhase_fatal g0.dedup d0 pn e htl he⟩
      · exact ⟨_, runG_topLevel_fatal _ (by rw [htl]; simp)⟩
  · intro hall hcontra
    rcases runG_error_cases g0.dedup _ hcontra with ⟨n, hn⟩ | ⟨pn, d0, htl, hfp⟩ | hre
    · cases hn
    · unfold filePhase at hfp
      rcases foldlE_error_inv _ _ _ hfp with ⟨stf, d, hd, hstep⟩
      unfold fileStep at hstep
      rcases hpd : processDataset g0.dedup pn d with e' | pairs
      · rw [hpd] at hstep
        cases hstep
        have hds := processDataset_sizeMismatch_inv _ _ _ hpd
        have hscan := (distribScan_error_iff _ _ _).1 hds
        rcases (scanSizes_none_error_iff _).1 ⟨_, hscan⟩ with ⟨a, ha, b, hb, hab⟩
        exact hab (hall d hd a ha b hb)
      · rw [hpd] at hstep
        cases hstep
    · rcases hre with h1 | h1 <;> cases h1

theorem c5_distribution_size_mismatch_witness :
    distribScan c5WitnessGraph.dedup "D" = .error .sizeMismatch ∧
      (∃ e, run c5WitnessGraph = ([], some e)) ∧
      (run []).2 ≠ some .sizeMismatch := by
  have h1 := (c5_distribution_size_mismatch c5WitnessGraph).1 "D"
    (by decide) (by decide)
  exact ⟨h1.1, h1.2, (c5_distribution_size_mismatch []).2 (by decide)⟩

theorem c6_gtex_classification_amended_witness :
    classify gtexTitle (some "s3://bucket/wgs/f.cram") =
      .ok ("WGS", "s3://bucket/wgs/f.cram") ∧
    classify gtexTitle (some "s3://bucket/rnaseq/f.cram") =
      .ok ("RNA-Seq", "s3://bucket/rnaseq/f.cram") ∧
    ∃ e, run c6WitnessGraph = ([], some e) := by
  refine ⟨(c6_gtex_classification_amended gtexTitle "s3://bucket/wgs/f.cram"
      (by decide)).1 (by decide),
    (c6_gtex_classification_amended gtexTitle "s3://bucket/rnaseq/f.cram"
      (by decide)).2.1 (by decide) (by decide), ?_⟩
  exact (c6_gtex_classification_amended gtexTitle "s3://bucket/other/f.cram"
      (by decide)).2.2.2 c6WitnessGraph "D" "D" "s3://bucket/other/f.cram"
      (by decide) (by decide) (by decide)

/-! ## Claim C10 -/

theorem classify_topmed_error (s3 : Option String) :
    ∃ e, classify topmedTitle s3 = .error e := by
  have hg : strContains topmedTitle "GTEx" = false := by decide
  unfold classify
  rw [if_neg (by rw [hg]; simp)]
  rcases s3 with _ | u
  · exact ⟨.typeError, rfl⟩
  · exact ⟨.unknownSeqType u, rfl⟩

theorem samplePairs_err (g : Graph) (pn : String)
    (s3 gs fsz md5 : Option String) (distribs : List (String × Option String))
    (sample : Node) (e : Err) (hap : anatPartsOf g sample = .error e) :
    samplePairs g pn s3 gs fsz md5 distribs sample = .error e := by
  unfold samplePairs
  rw [hap]

theorem samplePairs_ok (g : Graph) (pn : String)
    (s3 gs fsz md5 : Option String) (distribs : List (String × Option String))
    (sample : Node) (parts : List (Option String × String))
    (hap : anatPartsOf g sample = .ok parts) :
    samplePairs g pn s3 gs fsz md5 distribs sample =
      foldlE (tmatch g (some sample) (some DERIVES_FROM_TERM) none) []
        (sampleStep g pn s3 gs fsz md5 distribs parts) := by
  unfold samplePairs
  rw [hap]

/-- In a TOPMed run a sample with at least one `derivesFrom` target
makes `samplePairs` abort: the anatomical-part resolution aborts, or the
part count is wrong, or the classifier's non-GTEx branch exits. -/
theorem samplePairs_topmed_error (g : Graph) (s3 gs fsz md5 : Option String)
    (distribs : List (String × Option String)) (sample : Node)
    (hne : tmatch g (some sample) (some DERIVES_FROM_TERM) none ≠ []) :
    ∃ e, samplePairs g topmedTitle s3 gs fsz md5 distribs sample = .error e := by
  rcases hap : anatPartsOf g sample with e' | parts
  · exact ⟨e', samplePairs_err g topmedTitle s3 gs fsz md5 distribs sample e' hap⟩
  · rw [samplePairs_ok g topmedTitle s3 gs fsz md5 distribs sample parts hap]
    rcases hdf : tmatch g (some sample) (some DERIVES_FROM_TERM) none
      with _ | ⟨t1, ts⟩
    · exact absurd hdf hne
    · rw [foldlE_cons]
      rcases parts with _ | ⟨part, rest⟩
      · exact ⟨.anatPartCount 0, rfl⟩
      · rcases rest with _ | ⟨part2, rest2⟩
        · rcases classify_topmed_error s3 with ⟨e, he⟩
          have hs : sampleStep g topmedTitle s3 gs fsz md5 distribs [part] [] t1 =
              .error e := by
            unfold sampleStep
            rw [he]
          rw [hs]
          exact ⟨e, rfl⟩
        · exact ⟨.anatPartCount (part :: part2 :: rest2).length, rfl⟩

/-- In a TOPMed run `samplePairs` never produces a link: it returns the
empty list or aborts. -/
theorem samplePairs_topmed_no_files (g : Graph) (s3 gs fsz md5 : Option String)
    (distribs : List (String × Option String)) (sample : Node) :
    samplePairs g topmedTitle s3 gs fsz md5 distribs sample = .ok [] ∨
      ∃ e, samplePairs g topmedTitle s3 gs fsz md5 distribs sample = .error e := by
  rcases hdf : tmatch g (some sample) (some DERIVES_FROM_TERM) none
    with _ | ⟨t1, ts⟩
  · rcases hap : anatPartsOf g sample with e' | parts
    · exact Or.inr ⟨e',
        samplePairs_err g topmedTitle s3 gs fsz md5 distribs sample e' hap⟩
    · rw [samplePairs_ok g topmedTitle s3 gs fsz md5 distribs sample parts hap,
        hdf, foldlE_nil]
      exact Or.inl rfl
  · exact Or.inr (samplePairs_topmed_error g s3 gs fsz md5 distribs sample
      (by rw [hdf]; simp))

/-- **C10.**  For a run whose single top-level (dataset, title) match
carries the TOPMed title: the classifier's non-GTEx branch exits
unconditionally for every S3 URI; a sample never yields a FileInfo link;
and any Dataset with exactly one DataAcquisition and a complete
input-extract → derives-from-sample chain with a subject side makes its
own processing — and with it the whole run — abort fatally with no
output. -/
theorem c10_topmed_always_fatal (g0 : List Triple) (d0 d acq : Node)
    (tIn tS : Triple)
    (htl : tlTitlePairs g0.dedup (allDatasets g0.dedup) = [(d0, topmedTitle)])
    (hd : d ∈ allDatasets g0.dedup)
    (hacq : dataAcqsOf g0.dedup d = [acq])
    (hin : tIn ∈ tmatch g0.dedup (some acq) (some HAS_INPUT_TERM) none)
    (hsm : tS ∈ tmatch g0.dedup (some tIn.o) (some DERIVES_FROM_TERM) none)
    (hsub : tmatch g0.dedup (some tS.o) (some DERIVES_FROM_TERM) none ≠ []) :
    (∀ s3 : Option String, ∃ e, classify topmedTitle s3 = .error e) ∧
    (∃ e, processDataset g0.dedup topmedTitle d = .error e) ∧
    (∃ e, run g0 = ([], some e)) := by
  have hproc : ∃ e, processDataset g0.dedup topmedTitle d = .error e := by
    rcases hds : distribScan g0.dedup d with e' | ⟨s3, gs, fsz, distribs⟩
    · exact ⟨e', processDataset_error_of_distribScan g0.dedup topmedTitle d e' hds⟩
    · have heq : processDataset g0.dedup topmedTitle d =
          foldlE (tmatch g0.dedup (some acq) (some HAS_INPUT_TERM) none) []
            (chainInputStep g0.dedup topmedTitle s3 gs fsz
              (dimsMD5 g0.dedup d) distribs) := by
        unfold processDataset
        rw [hds, hacq]
      rw [heq]
      have hsample : ∀ (pairs : List (Node × FileInfo)),
          ∃ e, chainSampleStep g0.dedup topmedTitle s3 gs fsz
            (dimsMD5 g0.dedup d) distribs pairs tS = .error e := by
        intro pairs
        unfold chainSampleStep
        rcases samplePairs_topmed_error g0.dedup s3 gs fsz (dimsMD5 g0.dedup d)
          distribs tS.o hsub with ⟨e, he⟩
        rw [he]
        exact ⟨e, rfl⟩
      have hinner : ∀ (pairs : List (Node × FileInfo)),
          ∃ e, chainInputStep g0.dedup topmedTitle s3 gs fsz
            (dimsMD5 g0.dedup d) distribs pairs tIn = .error e := by
        intro pairs
        unfold chainInputStep
        exact foldlE_error_of_mem hsample _ pairs hsm
      exact foldlE_error_of_mem hinner _ [] hin
  rcases hproc with ⟨e, he⟩
  rcases filePhase_error_of_processDataset g0.dedup topmedTitle
    (allDatasets g0.dedup) d e hd he with ⟨e', he'⟩
  exact ⟨classify_topmed_error, ⟨e, he⟩,
    ⟨e', runG_filePhase_fatal g0.dedup d0 topmedTitle e' htl he'⟩⟩

theorem c10_topmed_always_fatal_witness :
    ∃ e, run c10WitnessGraph = ([], some e) := by
  exact (c10_topmed_always_fatal c10WitnessGraph "D" "D" "ACQ"
    ⟨"ACQ", HAS_INPUT_TERM, "EXT"⟩ ⟨"EXT", DERIVES_FROM_TERM, "SAMP"⟩
    (by decide) (by decide) (by decide) (by decide) (by decide)
    (by decide)).2.2

/-! ## Claim C8 -/

/-- **C8.**  The pipeline is deterministic: the whole computation is a
pure function of the triple graph, so running it twice on the same
static graph produces identical output (same header, same rows, same
order, same abort), and the output depends only on the *set* of triples
— two enumerations with the same deduplication print the same bytes. -/
theorem c8_deterministic :
    (∀ g0 : List Triple, run g0 = run g0) ∧
    (∀ g1 g2 : List Triple, g1.dedup = g2.dedup → run g1 = run g2) :=
  ⟨fun _ => rfl, fun g1 g2 h => by unfold run; rw [h]⟩

/-- Witness for C8: a duplicated enumeration of a one-triple graph
yields output identical to the deduplicated one. -/
theorem c8_deterministic_witness :
    run [⟨"D", RDF_TYPE_TERM, DATS_DATASET_TERM⟩,
         ⟨"D", RDF_TYPE_TERM, DATS_DATASET_TERM⟩] =
      run [⟨"D", RDF_TYPE_TERM, DATS_DATASET_TERM⟩] :=
  c8_deterministic.2 _ _ (by decide)

/-! ## Claim C9: dictionary and traversal lemmas -/

theorem dlookup_dinsert_self [DecidableEq α] (m : List (α × β)) (k : α)
    (v : β) : dlookup (dinsert m k v) k = some v := by
  induction m with
  | nil => simp [dinsert, dlookup]
  | cons p m ih =>
    rcases p with ⟨k', v'⟩
    by_cases hk : k' = k
    · simp [dinsert, hk, dlookup]
    · simp only [dinsert, dlookup, if_neg hk]
      exact ih

theorem dlookup_dinsert_ne [DecidableEq α] (m : List (α × β)) (k k' : α)
    (v : β) (h : k ≠ k') : dlookup (dinsert m k v) k' = dlookup m k' := by
  induction m with
  | nil => simp [dinsert, dlookup, fun hc => h hc]
  | cons p m ih =>
    rcases p with ⟨k0, v0⟩
    by_cases hk : k0 = k
    · subst hk
      simp only [dinsert, if_pos rfl, dlookup]
      rw [if_neg h, if_neg h]
    · simp only [dinsert, if_neg hk, dlookup]
      by_cases hk' : k0 = k'
      · rw [if_pos hk', if_pos hk']
      · rw [if_neg hk', if_neg hk']
        exact ih

/-- A name-recording fold keyed at a node other than `m` leaves `m`'s
entry alone; keyed at `m` with no name triples it does nothing. -/
theorem nameFold_lookup_none (x : Node) (m : Node) :
    ∀ (ts : List Triple) (names : List (Node × String)),
      (x = m → ts = []) → dlookup names m = none →
      dlookup (ts.foldl (fun acc t3 => dinsert acc x t3.o) names) m = none := by
  intro ts
  induction ts with
  | nil => intro names _ h; exact h
  | cons t3 ts ih =>
    intro names hx h
    rw [List.foldl_cons]
    by_cases hxm : x = m
    · cases hx hxm
    · exact ih _ (fun hc => absurd hc hxm) (by rw [dlookup_dinsert_ne _ _ _ _ hxm]; exact h)

/-- A member with no name triple is never entered into the
subject-name map by one member step. -/
theorem memberStep_lookup_none (g : Graph) (m : Node)
    (hnoname : tmatch g (some m) (some NAME_TERM) none = []) :
    ∀ (acc : List Node × List (Node × String)) (t : Triple),
      dlookup acc.2 m = none → dlookup (memberStep g acc t).2 m = none := by
  intro acc t h
  unfold memberStep
  generalize tmatch g (some t.o) (some RDF_TYPE_TERM) (some DATS_MATERIAL_TERM) = tys
  induction tys generalizing acc with
  | nil => exact h
  | cons ty tys ih =>
    rw [List.foldl_cons]
    apply ih
    exact nameFold_lookup_none t.o m _ acc.2
      (fun hom => by rw [hom, hnoname]) h

theorem groupMembers_lookup_none (g : Graph) (m : Node)
    (hnoname : tmatch g (some m) (some NAME_TERM) none = []) (sg : Node) :
    ∀ (names0 : List (Node × String)), dlookup names0 m = none →
      dlookup (groupMembers g sg names0).2 m = none := by
  intro names0 h
  unfold groupMembers
  generalize tmatch g (some sg) (some HAS_MEMBER_TERM) none = ts
  have : ∀ (ts : List Triple) (acc : List Node × List (Node × String)),
      dlookup acc.2 m = none →
      dlookup ((ts.foldl (memberStep g) acc)).2 m = none := by
    intro ts
    induction ts with
    | nil => intro acc h; exact h
    | cons t ts ih =>
      intro acc h
      rw [List.foldl_cons]
      exact ih _ (memberStep_lookup_none g m hnoname acc t h)
  exact this ts ([], names0) h

/-- **C9 part (b) engine**: a Material member with no name triple never
enters `subject_to_name`. -/
theorem buildSubjects_name_none (g : Graph) (m : Node)
    (hnoname : tmatch g (some m) (some NAME_TERM) none = []) (sgs : List Node) :
    dlookup (buildSubjects g sgs).2 m = none := by
  unfold buildSubjects
  have haux : ∀ (sgs : List Node)
      (st : List (Node × List Node) × List (Node × String)),
      dlookup st.2 m = none →
      dlookup ((sgs.foldl (subjectsStep g) st)).2 m = none := by
    intro sgs
    induction sgs with
    | nil => intro st h; exact h
    | cons sg sgs ih =>
      intro st h
      rw [List.foldl_cons]
      exact ih _ (groupMembers_lookup_none g m hnoname sg st.2 h)
  exact haux sgs ([], []) rfl

theorem mem_tmatch_spn (g : Graph) (s p : Node) (t : Triple) :
    t ∈ tmatch g (some s) (some p) none ↔ t ∈ g ∧ t.s = s ∧ t.p = p := by
  simp [tmatch, List.mem_filter, and_assoc]

theorem mem_tmatch_spo (g : Graph) (s p o : Node) (t : Triple) :
    t ∈ tmatch g (some s) (some p) (some o) ↔
      t ∈ g ∧ t.s = s ∧ t.p = p ∧ t.o = o := by
  simp [tmatch, List.mem_filter, and_assoc]

/-- The subject-list part of one member step: one copy of the member per
`Material` type assertion, appended on the right. -/
theorem memberStep_fst (g : Graph) (acc : List Node × List (Node × String))
    (t : Triple) :
    (memberStep g acc t).1 =
      acc.1 ++ (tmatch g (some t.o) (some RDF_TYPE_TERM)
        (some DATS_MATERIAL_TERM)).map (fun _ => t.o) := by
  unfold memberStep
  generalize tmatch g (some t.o) (some RDF_TYPE_TERM) (some DATS_MATERIAL_TERM) = tys
  induction tys generalizing acc with
  | nil => simp
  | cons ty tys ih =>
    rw [List.foldl_cons, ih, List.map_cons]
    simp

/-- The subject list of a group does not depend on the threaded name
map. -/
theorem groupMembers_fst (g : Graph) (sg : Node)
    (names0 : List (Node × String)) :
    (groupMembers g sg names0).1 = msList g sg := by
  unfold groupMembers msList
  generalize tmatch g (some sg) (some HAS_MEMBER_TERM) none = ts
  have haux : ∀ (ts : List Triple) (acc : List Node × List (Node × String)),
      (ts.foldl (memberStep g) acc).1 =
        acc.1 ++ ts.flatMap (fun t =>
          (tmatch g (some t.o) (some RDF_TYPE_TERM)
            (some DATS_MATERIAL_TERM)).map fun _ => t.o) := by
    intro ts
    induction ts with
    | nil => intro acc; simp
    | cons t ts ih =>
      intro acc
      rw [List.foldl_cons, ih, memberStep_fst, List.flatMap_cons,
        List.append_assoc]
  rw [haux ts ([], names0)]
  rfl

theorem foldl_subjectsStep_lookup_notmem (g : Graph) :
    ∀ (sgs : List Node) (st : List (Node × List Node) × List (Node × String))
      (k : Node), k ∉ sgs →
      dlookup ((sgs.foldl (subjectsStep g) st)).1 k = dlookup st.1 k := by
  intro sgs
  induction sgs with
  | nil => intro st k _; rfl
  | cons sg sgs ih =>
    intro st k hk
    rw [List.foldl_cons]
    rw [ih _ k (fun hc => hk (List.mem_cons_of_mem sg hc))]
    exact dlookup_dinsert_ne _ _ _ _ fun hc =>
      hk (hc ▸ List.mem_cons_self sg sgs)

/-- A processed group's final subject list is its member list. -/
theorem buildSubjects_lookup (g : Graph) :
    ∀ (sgs : List Node)
      (st : List (Node × List Node) × List (Node × String)) (sg : Node),
      sg ∈ sgs →
      dlookup ((sgs.foldl (subjectsStep g) st)).1 sg = some (msList g sg) := by
  intro sgs
  induction sgs with
  | nil => intro st sg h; cases h
  | cons sg0 sgs ih =>
    intro st sg h
    rw [List.foldl_cons]
    by_cases hmem : sg ∈ sgs
    · exact ih _ sg hmem
    · rcases List.mem_cons.1 h with rfl | hc
      · rw [foldl_subjectsStep_lookup_notmem g sgs _ sg hmem]
        show dlookup (dinsert st.1 sg (groupMembers g sg st.2).1) sg = _
        rw [dlookup_dinsert_self, groupMembers_fst]
      · exact absurd hc hmem

theorem mapM_eq_none {α β : Type} (f : α → Option β) :
    ∀ (l : List α) (a : α), a ∈ l → f a = none → l.mapM f = none := by
  intro l
  induction l with
  | nil => intro a h; cases h
  | cons b l ih =>
    intro a h hfa
    rw [List.mapM_cons]
    rcases List.mem_cons.1 h with rfl | hmem
    · rw [hfa]
      rfl
    · rcases hfb : f b with _ | x
      · rfl
      · rw [ih a hmem hfa]
        rfl

/-- Sorting the group's subjects by `subject_to_name[x]` raises
`KeyError` as soon as one subject is missing from the name map, before
any of the group's rows print. -/
theorem renderGroup_keyError (scn : List String) (headerLen : Nat)
    (pn did gn : String) (sg2subj : List (Node × List Node))
    (s2name : List (Node × String))
    (s2chars : List (Node × List (String × String)))
    (s2files : List (Node × List FileInfo)) (sg m : Node)
    (subjects : List Node)
    (hsubj : dlookup sg2subj sg = some subjects) (hm : m ∈ subjects)
    (hname : dlookup s2name m = none) :
    renderGroup scn headerLen pn did gn sg2subj s2name s2chars s2files sg =
      ([], some .keyError) := by
  have hsort : sortByKeyM (fun x => dlookup s2name x) strLeB subjects =
      .error .keyError := by
    unfold sortByKeyM
    rw [mapM_eq_none _ subjects m hm (by simp [hname])]
  unfold renderGroup
  rw [hsubj]
  show (match sortByKeyM (fun x => dlookup s2name x) strLeB subjects with
    | .error e => (([] : List Row), some e)
    | .ok sortedSubjects =>
      accumRows
        (fun p => renderSubject scn headerLen pn did gn s2chars s2files p.1 p.2)
        sortedSubjects) = ([], some .keyError)
  rw [hsort]

/-! ## Claim C9 -/

/-- **C9.**  If a StudyGroup member typed `Material` has no name triple:
it is still appended to the group's subject list (line 92 is outside the
name loop), it is absent from `subject_to_name`, and rendering that
group aborts with an unguarded key lookup — the sort key at line 298
computes `subject_to_name[x]` for every subject before sorting — so no
row of the group (in particular none for the member) is emitted. -/
theorem c9_nameless_member_keyerror (g : Graph) (sgs : List Node)
    (sg m : Node)
    (hmem : (⟨sg, HAS_MEMBER_TERM, m⟩ : Triple) ∈ g)
    (hty : (⟨m, RDF_TYPE_TERM, DATS_MATERIAL_TERM⟩ : Triple) ∈ g)
    (hnoname : tmatch g (some m) (some NAME_TERM) none = [])
    (hsg : sg ∈ sgs) :
    (dlookup (buildSubjects g sgs).1 sg = some (msList g sg) ∧
      m ∈ msList g sg) ∧
    dlookup (buildSubjects g sgs).2 m = none ∧
    (∀ (scn : List String) (headerLen : Nat) (pn did gn : String)
      (s2chars : List (Node × List (String × String)))
      (s2files : List (Node × List FileInfo)),
      renderGroup scn headerLen pn did gn (buildSubjects g sgs).1
        (buildSubjects g sgs).2 s2chars s2files sg = ([], some .keyError)) := by
  have hlook : dlookup (buildSubjects g sgs).1 sg = some (msList g sg) :=
    buildSubjects_lookup g sgs ([], []) sg hsg
  have hmm : m ∈ msList g sg := by
    unfold msList
    rw [List.mem_flatMap]
    refine ⟨⟨sg, HAS_MEMBER_TERM, m⟩, ?_, ?_⟩
    · rw [mem_tmatch_spn]
      exact ⟨hmem, rfl, rfl⟩
    · rw [List.mem_map]
      refine ⟨⟨m, RDF_TYPE_TERM, DATS_MATERIAL_TERM⟩, ?_, rfl⟩
      rw [mem_tmatch_spo]
      exact ⟨hty, rfl, rfl, rfl⟩
  have hnone : dlookup (buildSubjects g sgs).2 m = none :=
    buildSubjects_name_none g m hnoname sgs
  exact ⟨⟨hlook, hmm⟩, hnone,
    fun scn headerLen pn did gn s2chars s2files =>
      renderGroup_keyError scn headerLen pn did gn _ _ s2chars s2files sg m
        (msList g sg) hlook hmm hnone⟩

/-! ## Comparator laws and stable-sort lemmas (for the sort-order claim) -/

theorem strCmp_swap : ∀ a b : List Char, strCmp a b = (strCmp b a).swap := by
  intro a
  induction a with
  | nil => intro b; cases b <;> rfl
  | cons x xs ih =>
    intro b
    cases b with
    | nil => rfl
    | cons y ys =>
      show (if x.toNat < y.toNat then Ordering.lt
        else if y.toNat < x.toNat then Ordering.gt else strCmp xs ys) =
        ((if y.toNat < x.toNat then Ordering.lt
          else if x.toNat < y.toNat then Ordering.gt else strCmp ys xs)).swap
      rcases Nat.lt_trichotomy x.toNat y.toNat with h | h | h
      · rw [if_pos h, if_neg (by omega), if_pos h]
        rfl
      · rw [if_neg (by omega), if_neg (by omega), if_neg (by omega),
          if_neg (by omega)]
        exact ih ys
      · rw [if_neg (by omega), if_pos h, if_pos h]
        rfl

theorem strCmp_lt_trans : ∀ a b d : List Char,
    strCmp a b = .lt → strCmp b d = .lt → strCmp a d = .lt := by
  intro a
  induction a with
  | nil =>
    intro b d h1 h2
    cases b with
    | nil => cases h1
    | cons y ys =>
      cases d with
      | nil => cases h2
      | cons z zs => rfl
  | cons x xs ih =>
    intro b d h1 h2
    cases b with
    | nil => cases h1
    | cons y ys =>
      cases d with
      | nil => cases h2
      | cons z zs =>
        rw [show strCmp (x :: xs) (y :: ys) =
          (if x.toNat < y.toNat then Ordering.lt
            else if y.toNat < x.toNat then Ordering.gt else strCmp xs ys)
          from rfl] at h1
        rw [show strCmp (y :: ys) (z :: zs) =
          (if y.toNat < z.toNat then Ordering.lt
            else if z.toNat < y.toNat then Ordering.gt else strCmp ys zs)
          from rfl] at h2
        show (if x.toNat < z.toNat then Ordering.lt
          else if z.toNat < x.toNat then Ordering.gt else strCmp xs zs) = .lt
        by_cases hxy : x.toNat < y.toNat
        · by_cases hyz : y.toNat < z.toNat
          · rw [if_pos (by omega)]
          · rw [if_neg hyz] at h2
            by_cases hzy : z.toNat < y.toNat
            · rw [if_pos hzy] at h2; cases h2
            · rw [if_pos (by omega)]
        · rw [if_neg hxy] at h1
          by_cases hyx : y.toNat < x.toNat
          · rw [if_pos hyx] at h1; cases h1
          · rw [if_neg hyx] at h1
            by_cases hyz : y.toNat < z.toNat
            · rw [if_pos (by omega)]
            · rw [if_neg hyz] at h2
              by_cases hzy : z.toNat < y.toNat
              · rw [if_pos hzy] at h2; cases h2
              · rw [if_neg hzy] at h2
                rw [if_neg (by omega), if_neg (by omega)]
                exact ih ys zs h1 h2

theorem strCmp_eq_congr : ∀ a b : List Char, strCmp a b = .eq →
    ∀ d, strCmp a d = strCmp b d := by
  intro a
  induction a with
  | nil =>
    intro b h d
    cases b with
    | nil => rfl
    | cons y ys => cases h
  | cons x xs ih =>
    intro b h d
    cases b with
    | nil => cases h
    | cons y ys =>
      rw [show strCmp (x :: xs) (y :: ys) =
        (if x.toNat < y.toNat then Ordering.lt
          else if y.toNat < x.toNat then Ordering.gt else strCmp xs ys)
        from rfl] at h
      by_cases hxy : x.toNat < y.toNat
      · rw [if_pos hxy] at h; cases h
      · rw [if_neg hxy] at h
        by_cases hyx : y.toNat < x.toNat
        · rw [if_pos hyx] at h; cases h
        · rw [if_neg hyx] at h
          cases d with
          | nil => rfl
          | cons z zs =>
            show (if x.toNat < z.toNat then Ordering.lt
              else if z.toNat < x.toNat then Ordering.gt else strCmp xs zs) =
              (if y.toNat < z.toNat then Ordering.lt
                else if z.toNat < y.toNat then Ordering.gt else strCmp ys zs)
            have hxz : x.toNat = y.toNat := by omega
            rw [hxz, ih ys h zs]

theorem lawful_strCmp : LawfulCmp strCmp :=
  ⟨strCmp_swap, strCmp_lt_trans, strCmp_eq_congr⟩

theorem lawful_optStrCmp : LawfulCmp optStrCmp := by
  refine ⟨?_, ?_, ?_⟩
  · intro a b
    rcases a with _ | a <;> rcases b with _ | b
    · rfl
    · rfl
    · rfl
    · exact strCmp_swap a.data b.data
  · intro a b d h1 h2
    rcases a with _ | a <;> rcases b with _ | b <;> rcases d with _ | d <;>
      simp only [optStrCmp] at h1 h2 ⊢ <;>
      first
        | rfl
        | simp at h1
        | simp at h2
        | exact strCmp_lt_trans _ _ _ h1 h2
  · intro a b h d
    rcases a with _ | a <;> rcases b with _ | b <;>
      simp only [optStrCmp] at h ⊢ <;>
      first
        | rfl
        | cases h
        | (rcases d with _ | d
           · rfl
           · exact strCmp_eq_congr _ _ h _)

theorem lawful_comap {α β : Type} (c : α → α → Ordering) (f : β → α)
    (h : LawfulCmp c) : LawfulCmp (fun x y => c (f x) (f y)) :=
  ⟨fun a b => h.1 (f a) (f b),
   fun a b d => h.2.1 (f a) (f b) (f d),
   fun a b hab d => h.2.2 (f a) (f b) hab (f d)⟩

theorem Ordering_then_swap (o p : Ordering) :
    (o.then p).swap = o.swap.then p.swap := by
  cases o <;> cases p <;> rfl

theorem Ordering_then_eq (o p : Ordering) (h : o.then p = .eq) :
    o = .eq ∧ p = .eq := by
  cases o <;> cases p <;> simp_all [Ordering.then]

theorem Ordering_then_lt (o p : Ordering) :
    o.then p = .lt ↔ (o = .lt ∨ (o = .eq ∧ p = .lt)) := by
  cases o <;> cases p <;> simp [Ordering.then]

/-- Substitutivity of `eq` on the right argument, derived from the
`swap` and left-substitutivity laws. -/
theorem lawful_congr_right {α : Type} {c : α → α → Ordering}
    (h : LawfulCmp c) {b d : α} (hbd : c b d = .eq) (a : α) :
    c a b = c a d := by
  rw [h.1 a b, h.1 a d, h.2.2 b d hbd a]

theorem lawful_then {α : Type} (c1 c2 : α → α → Ordering)
    (h1 : LawfulCmp c1) (h2 : LawfulCmp c2) :
    LawfulCmp (fun a b => (c1 a b).then (c2 a b)) := by
  refine ⟨?_, ?_, ?_⟩
  · intro a b
    show (c1 a b).then (c2 a b) = ((c1 b a).then (c2 b a)).swap
    rw [h1.1 a b, h2.1 a b, Ordering_then_swap]
  · intro a b d hab hbd
    have hab' : (c1 a b).then (c2 a b) = .lt := hab
    have hbd' : (c1 b d).then (c2 b d) = .lt := hbd
    show (c1 a d).then (c2 a d) = .lt
    rw [Ordering_then_lt] at hab' hbd' ⊢
    rcases hab' with h1ab | ⟨h1ab, h2ab⟩
    · rcases hbd' with h1bd | ⟨h1bd, h2bd⟩
      · exact Or.inl (h1.2.1 a b d h1ab h1bd)
      · exact Or.inl (by rw [← lawful_congr_right h1 h1bd a]; exact h1ab)
    · rcases hbd' with h1bd | ⟨h1bd, h2bd⟩
      · exact Or.inl (by rw [h1.2.2 a b h1ab d]; exact h1bd)
      · exact Or.inr ⟨by rw [h1.2.2 a b h1ab d]; exact h1bd,
          h2.2.1 a b d h2ab h2bd⟩
  · intro a b h d
    have h' : (c1 a b).then (c2 a b) = .eq := h
    show (c1 a d).then (c2 a d) = (c1 b d).then (c2 b d)
    rcases Ordering_then_eq _ _ h' with ⟨he1, he2⟩
    rw [h1.2.2 a b he1 d, h2.2.2 a b he2 d]

theorem lawful_le_total {α : Type} {c : α → α → Ordering} (h : LawfulCmp c)
    (a b : α) : cmpLe (c a b) = true ∨ cmpLe (c b a) = true := by
  rcases hc : c a b with _ | _ | _
  · exact Or.inl rfl
  · exact Or.inl rfl
  · right
    rw [h.1 b a, hc]
    rfl

theorem lawful_le_trans {α : Type} {c : α → α → Ordering} (h : LawfulCmp c)
    {a b d : α} (hab : cmpLe (c a b) = true) (hbd : cmpLe (c b d) = true) :
    cmpLe (c a d) = true := by
  rcases hab' : c a b with _ | _ | _ <;> rw [hab'] at hab
  · rcases hbd' : c b d with _ | _ | _ <;> rw [hbd'] at hbd
    · rw [h.2.1 a b d hab' hbd']
      rfl
    · rw [← lawful_congr_right h hbd' a, hab']
      rfl
    · cases hbd
  · rcases hbd' : c b d with _ | _ | _ <;> rw [hbd'] at hbd
    · rw [h.2.2 a b hab' d, hbd']
      rfl
    · rw [h.2.2 a b hab' d, hbd']
      rfl
    · cases hbd
  · cases hab

theorem mem_sinsert {α : Type} (le : α → α → Bool) (x a : α) :
    ∀ l : List α, x ∈ sinsert le a l ↔ x = a ∨ x ∈ l := by
  intro l
  induction l with
  | nil => simp [sinsert]
  | cons b l ih =>
    unfold sinsert
    by_cases hb : le a b = true
    · simp [hb]
    · simp only [if_neg hb, List.mem_cons, ih]
      tauto

theorem pairwise_sinsert {α : Type} (le : α → α → Bool)
    (htot : ∀ a b, le a b = true ∨ le b a = true)
    (htrans : ∀ a b c, le a b = true → le b c = true → le a c = true)
    (a : α) :
    ∀ l : List α, l.Pairwise (le · · = true) →
      (sinsert le a l).Pairwise (le · · = true) := by
  intro l
  induction l with
  | nil => intro _; simp [sinsert]
  | cons b l ih =>
    intro hp
    rcases List.pairwise_cons.1 hp with ⟨hb, hl⟩
    unfold sinsert
    by_cases hab : le a b = true
    · rw [if_pos hab]
      refine List.pairwise_cons.2 ⟨?_, hp⟩
      intro x hx
      rcases List.mem_cons.1 hx with rfl | hx'
      · exact hab
      · exact htrans a b x hab (hb x hx')
    · rw [if_neg hab]
      refine List.pairwise_cons.2 ⟨?_, ih hl⟩
      intro x hx
      rcases (mem_sinsert le x a l).1 hx with h' | hx'
      · rw [h']
        rcases htot a b with h | h
        · exact absurd h hab
        · exact h
      · exact hb x hx'

theorem pairwise_ssort {α : Type} (le : α → α → Bool)
    (htot : ∀ a b, le a b = true ∨ le b a = true)
    (htrans : ∀ a b c, le a b = true → le b c = true → le a c = true) :
    ∀ l : List α, (ssort le l).Pairwise (le · · = true) := by
  intro l
  induction l with
  | nil => exact List.Pairwise.nil
  | cons a l ih => exact pairwise_sinsert le htot htrans a _ ih

/-- The comparator underlying Python string `<=`. -/
theorem lawful_strDataCmp :
    LawfulCmp (fun a b : String => strCmp a.data b.data) :=
  lawful_comap strCmp String.data lawful_strCmp

theorem strLeB_total (a b : String) :
    strLeB a b = true ∨ strLeB b a = true :=
  lawful_le_total lawful_strDataCmp a b

theorem strLeB_trans (a b d : String) (h1 : strLeB a b = true)
    (h2 : strLeB b d = true) : strLeB a d = true :=
  lawful_le_trans lawful_strDataCmp h1 h2

theorem lawful_fileCmp : LawfulCmp fileCmp :=
  lawful_then _ _
    (lawful_comap optStrCmp FileInfo.anatomicalPartName lawful_optStrCmp)
    (lawful_then _ _
      (lawful_comap strCmp (fun f => f.datatype.data) lawful_strCmp)
      (lawful_comap strCmp (fun f => f.s3URI.data) lawful_strCmp))

theorem fileLe_total (a b : FileInfo) :
    fileLe a b = true ∨ fileLe b a = true :=
  lawful_le_total lawful_fileCmp a b

theorem fileLe_trans (a b d : FileInfo) (h1 : fileLe a b = true)
    (h2 : fileLe b d = true) : fileLe a d = true :=
  lawful_le_trans lawful_fileCmp h1 h2

/-- The keyed sort of lines 285/292/298: on success the returned
(element, key) pairs are in non-decreasing key order. -/
theorem sortByKeyM_pairwise {α K : Type} (key : α → Option K)
    (le : K → K → Bool)
    (htot : ∀ a b, le a b = true ∨ le b a = true)
    (htrans : ∀ a b c, le a b = true → le b c = true → le a c = true)
    (l : List α) (res : List (α × K))
    (h : sortByKeyM key le l = .ok res) :
    res.Pairwise (fun p q => le p.2 q.2 = true) := by
  unfold sortByKeyM at h
  rcases hm : l.mapM (fun a => (key a).map fun k => (a, k)) with _ | pairs
  · rw [hm] at h
    cases h
  · rw [hm] at h
    cases h
    exact pairwise_ssort _ (fun p q => htot p.2 q.2)
      (fun p q r => htrans p.2 q.2 r.2) pairs

/-- Line 321's sort: on success the files are in non-decreasing order
of the composite key `(anatomical part name, datatype, S3 URI)`. -/
theorem sortFilesM_pairwise (files sorted : List FileInfo)
    (h : sortFilesM files = .ok sorted) :
    sorted.Pairwise (fileLe · · = true) := by
  unfold sortFilesM at h
  split at h
  · cases h
  · cases h
    exact pairwise_ssort fileLe fileLe_total fileLe_trans files

/-! ## Rendering linearization equations -/

theorem accumRows_flatten {α : Type} {f : α → List Row × Option Err} :
    ∀ l : List α, (accumRows f l).2 = none →
      (accumRows f l).1 = l.flatMap fun a => (f a).1 := by
  intro l
  induction l with
  | nil => intro _; rfl
  | cons a l ih =>
    intro h
    unfold accumRows at h ⊢
    rcases hfa : f a with ⟨rs, _ | e⟩
    · rw [hfa] at h
      have h' : (accumRows f l).2 = none := h
      show rs ++ (accumRows f l).1 = (a :: l).flatMap fun a => (f a).1
      simp only [List.flatMap_cons, hfa]
      rw [ih h']
    · rw [hfa] at h
      exact absurd h (by simp)

/-- Lines 293-298 in equation form, when the group resolves and its
subject sort succeeds. -/
theorem renderGroup_eq (scn : List String) (headerLen : Nat)
    (pn did gn : String) (sg2subj : List (Node × List Node))
    (s2name : List (Node × String))
    (s2chars : List (Node × List (String × String)))
    (s2files : List (Node × List FileInfo)) (sg : Node)
    (subjects : List Node) (sortedSubjects : List (Node × String))
    (hsubj : dlookup sg2subj sg = some subjects)
    (hsort : sortByKeyM (fun x => dlookup s2name x) strLeB subjects =
      .ok sortedSubjects) :
    renderGroup scn headerLen pn did gn sg2subj s2name s2chars s2files sg =
      accumRows
        (fun p => renderSubject scn headerLen pn did gn s2chars s2files p.1 p.2)
        sortedSubjects := by
  unfold renderGroup
  rw [hsubj]
  show (match sortByKeyM (fun x => dlookup s2name x) strLeB subjects with
    | .error e => (([] : List Row), some e)
    | .ok sortedSubjects =>
      accumRows
        (fun p : Node × String =>
          renderSubject scn headerLen pn did gn s2chars s2files p.1 p.2)
        sortedSubjects) = _
  rw [hsort]

/-- Lines 286-298 in equation form, when the dataset's study and groups
resolve and the group sort succeeds. -/
theorem renderDataset_eq (scn : List String) (headerLen : Nat)
    (pn : String) (ds2study : List (Node × Node))
    (st2groups : List (Node × List Node)) (sg2name : List (Node × String))
    (sg2subj : List (Node × List Node)) (s2name : List (Node × String))
    (s2chars : List (Node × List (String × String)))
    (s2files : List (Node × List FileInfo)) (d : Node) (did : String)
    (study : Node) (groups : List Node) (sortedGroups : List (Node × String))
    (hst : dlookup ds2study d = some study)
    (hgr : dlookup st2groups study = some groups)
    (hsort : sortByKeyM (fun x => dlookup sg2name x) strLeB groups =
      .ok sortedGroups) :
    renderDataset scn headerLen pn ds2study st2groups sg2name sg2subj s2name
      s2chars s2files d did =
      accumRows
        (fun p =>
          renderGroup scn headerLen pn did p.2 sg2subj s2name s2chars
            s2files p.1)
        sortedGroups := by
  unfold renderDataset
  rw [hst]
  show (match dlookup st2groups study with
    | none => (([] : List Row), some Err.keyError)
    | some groups =>
      match sortByKeyM (fun x => dlookup sg2name x) strLeB groups with
      | .error e => ([], some e)
      | .ok sortedGroups =>
        accumRows
          (fun p : Node × String =>
            renderGroup scn headerLen pn did p.2 sg2subj s2name s2chars
              s2files p.1)
          sortedGroups) = _
  rw [hgr]
  show (match sortByKeyM (fun x => dlookup sg2name x) strLeB groups with
    | .error e => (([] : List Row), some e)
    | .ok sortedGroups =>
      accumRows
        (fun p : Node × String =>
          renderGroup scn headerLen pn did p.2 sg2subj s2name s2chars
            s2files p.1)
        sortedGroups) = _
  rw [hsort]

/-- Lines 16-347 in equation form on the success path: the output is the
header followed by the sorted datasets' blocks. -/
theorem runG_eq (g : Graph) (d0 : Node) (pn : String)
    (s2files : List (Node × List FileInfo))
    (sortedDs : List (Node × String))
    (htl : tlTitlePairs g (allDatasets g) = [(d0, pn)])
    (hfp : filePhase g pn (allDatasets g) = .ok s2files)
    (hsort : sortByKeyM (fun x => dlookup (datasetIdsOf g) x) strLeB
      (datasetsLinked g) = .ok sortedDs) :
    runG g =
      (headerCols (scnOf g) ::
        (accumRows
          (fun p =>
            renderDataset (scnOf g) (headerCols (scnOf g)).length pn
              (ds2studyOf g) (grpsOf g).1 (grpsOf g).2 (subjOf g).1
              (subjOf g).2 (chrsOf g).1 s2files p.1 p.2)
          sortedDs).1,
       (accumRows
          (fun p =>
            renderDataset (scnOf g) (headerCols (scnOf g)).length pn
              (ds2studyOf g) (grpsOf g).1 (grpsOf g).2 (subjOf g).1
              (subjOf g).2 (chrsOf g).1 s2files p.1 p.2)
          sortedDs).2) := by
  unfold runG
  rw [htl]
  show (match filePhase g pn (allDatasets g) with
    | .error e => (([] : List Row), some e)
    | .ok s2files =>
      match sortByKeyM (fun x => dlookup (datasetIdsOf g) x) strLeB
        (datasetsLinked g) with
      | .error e => ([headerCols (scnOf g)], some e)
      | .ok sortedDs =>
        (headerCols (scnOf g) ::
          (accumRows
            (fun p : Node × String =>
              renderDataset (scnOf g) (headerCols (scnOf g)).length pn
                (ds2studyOf g) (grpsOf g).1 (grpsOf g).2 (subjOf g).1
                (subjOf g).2 (chrsOf g).1 s2files p.1 p.2)
            sortedDs).1,
         (accumRows
            (fun p : Node × String =>
              renderDataset (scnOf g) (headerCols (scnOf g)).length pn
                (ds2studyOf g) (grpsOf g).1 (grpsOf g).2 (subjOf g).1
                (subjOf g).2 (chrsOf g).1 s2files p.1 p.2)
            sortedDs).2)) = _
  rw [hfp]
  show (match sortByKeyM (fun x => dlookup (datasetIdsOf g) x) strLeB
      (datasetsLinked g) with
    | .error e => ([headerCols (scnOf g)], some e)
    | .ok sortedDs =>
      (headerCols (scnOf g) ::
        (accumRows
          (fun p : Node × String =>
            renderDataset (scnOf g) (headerCols (scnOf g)).length pn
              (ds2studyOf g) (grpsOf g).1 (grpsOf g).2 (subjOf g).1
              (subjOf g).2 (chrsOf g).1 s2files p.1 p.2)
          sortedDs).1,
       (accumRows
          (fun p : Node × String =>
            renderDataset (scnOf g) (headerCols (scnOf g)).length pn
              (ds2studyOf g) (grpsOf g).1 (grpsOf g).2 (subjOf g).1
              (subjOf g).2 (chrsOf g).1 s2files p.1 p.2)
          sortedDs).2)) = _
  rw [hsort]

/-! ## Claim C3 -/

/-- **C3.**  On the success path the printed body is exactly the
concatenation, in sorted order, of the per-dataset blocks: the Datasets
ascend by resolved identifier (lines 284-285); each rendered Dataset's
block is the concatenation of its Study's group blocks with the groups
ascending by group name (lines 286-292); each group block is the
concatenation of its subject blocks with the subjects ascending by
subject name (line 298); and every successfully sorted file list ascends
by the composite key `(anatomical part name, datatype, S3 URI)` — the
`fileCmp` lexicographic `then`-chain, ties broken left-to-right
(line 321).  No stage emits in input/discovery order: each traversal list
passes through its sort before any row of it is printed. -/
theorem c3_sort_order (g : Graph) (d0 : Node) (pn : String)
    (s2files : List (Node × List FileInfo))
    (sortedDs : List (Node × String))
    (htl : tlTitlePairs g (allDatasets g) = [(d0, pn)])
    (hfp : filePhase g pn (allDatasets g) = .ok s2files)
    (hds : sortByKeyM (fun x => dlookup (datasetIdsOf g) x) strLeB
      (datasetsLinked g) = .ok sortedDs) :
    ((runG g).1 =
      headerCols (scnOf g) ::
        (accumRows
          (fun p : Node × String =>
            renderDataset (scnOf g) (headerCols (scnOf g)).length pn
              (ds2studyOf g) (grpsOf g).1 (grpsOf g).2 (subjOf g).1
              (subjOf g).2 (chrsOf g).1 s2files p.1 p.2)
          sortedDs).1) ∧
    sortedDs.Pairwise (fun p q => strLeB p.2 q.2 = true) ∧
    (∀ (d : Node) (did : String) (study : Node) (groups : List Node)
      (sortedGroups : List (Node × String)),
      dlookup (ds2studyOf g) d = some study →
      dlookup (grpsOf g).1 study = some groups →
      sortByKeyM (fun x => dlookup (grpsOf g).2 x) strLeB groups =
        .ok sortedGroups →
      renderDataset (scnOf g) (headerCols (scnOf g)).length pn
          (ds2studyOf g) (grpsOf g).1 (grpsOf g).2 (subjOf g).1
          (subjOf g).2 (chrsOf g).1 s2files d did =
        accumRows
          (fun p : Node × String =>
            renderGroup (scnOf g) (headerCols (scnOf g)).length pn did p.2
              (subjOf g).1 (subjOf g).2 (chrsOf g).1 s2files p.1)
          sortedGroups ∧
      sortedGroups.Pairwise (fun p q => strLeB p.2 q.2 = true)) ∧
    (∀ (did gn : String) (sg : Node) (subjects : List Node)
      (sortedSubjects : List (Node × String)),
      dlookup (subjOf g).1 sg = some subjects →
      sortByKeyM (fun x => dlookup (subjOf g).2 x) strLeB subjects =
        .ok sortedSubjects →
      renderGroup (scnOf g) (headerCols (scnOf g)).length pn did gn
          (subjOf g).1 (subjOf g).2 (chrsOf g).1 s2files sg =
        accumRows
          (fun p : Node × String =>
            renderSubject (scnOf g) (headerCols (scnOf g)).length pn did gn
              (chrsOf g).1 s2files p.1 p.2)
          sortedSubjects ∧
      sortedSubjects.Pairwise (fun p q => strLeB p.2 q.2 = true)) ∧
    ((∀ f1 f2, fileLe f1 f2 = cmpLe (fileCmp f1 f2)) ∧
     ∀ (files sorted : List FileInfo), sortFilesM files = .ok sorted →
       sorted.Pairwise (fileLe · · = true)) := by
  have hrun := runG_eq g d0 pn s2files sortedDs htl hfp hds
  refine ⟨?_, ?_, ?_, ?_, ?_, ?_⟩
  · rw [hrun]
  · exact sortByKeyM_pairwise _ strLeB strLeB_total strLeB_trans _ _ hds
  · intro d did study groups sortedGroups hst hgr hsg
    exact ⟨renderDataset_eq _ _ _ _ _ _ _ _ _ _ _ _ _ _ _ hst hgr hsg,
      sortByKeyM_pairwise _ strLeB strLeB_total strLeB_trans _ _ hsg⟩
  · intro did gn sg subjects sortedSubjects hsubj hss
    exact ⟨renderGroup_eq _ _ _ _ _ _ _ _ _ _ _ _ hsubj hss,
      sortByKeyM_pairwise _ strLeB strLeB_total strLeB_trans _ _ hss⟩
  · intro f1 f2
    rfl
  · intro files sorted h
    exact sortFilesM_pairwise files sorted h

/-- **C3, witness.**  A graph with two linked Datasets whose discovery
order disagrees with their identifier order satisfies the hypotheses of
`c3_sort_order`; the theorem yields the sorted-by-identifier pairwise
order of the dataset list. -/
theorem c3_sort_order_witness :
    tlTitlePairs c3WitnessGraph.dedup (allDatasets c3WitnessGraph.dedup) =
      [("D1", gtexTitle)] ∧
    filePhase c3WitnessGraph.dedup gtexTitle
      (allDatasets c3WitnessGraph.dedup) = .ok [] ∧
    sortByKeyM (fun x => dlookup (datasetIdsOf c3WitnessGraph.dedup) x)
      strLeB (datasetsLinked c3WitnessGraph.dedup) =
      .ok [("D2", "phs1"), ("D1", "phs2")] ∧
    ([("D2", "phs1"), ("D1", "phs2")] : List (Node × String)).Pairwise
      (fun p q => strLeB p.2 q.2 = true) :=
  ⟨by decide, by decide, by decide,
   (c3_sort_order c3WitnessGraph.dedup "D1" gtexTitle []
     [("D2", "phs1"), ("D1", "phs2")]
     (by decide) (by decide) (by decide)).2.1⟩

/-! ## Claim C7 -/

theorem mem_ssort {α : Type} (le : α → α → Bool) (x : α) :
    ∀ l : List α, x ∈ ssort le l ↔ x ∈ l := by
  intro l
  induction l with
  | nil => simp [ssort]
  | cons a l ih =>
    unfold ssort
    rw [mem_sinsert le x a (ssort le l), ih]
    simp

theorem dlookup_mem {α β : Type} [DecidableEq α] :
    ∀ (m : List (α × β)) (k : α) (v : β),
      dlookup m k = some v → (k, v) ∈ m := by
  intro m
  induction m with
  | nil => intro k v h; cases h
  | cons p rest ih =>
    intro k v h
    obtain ⟨k', v'⟩ := p
    unfold dlookup at h
    by_cases hk : k' = k
    · rw [if_pos hk] at h
      injection h with h
      rw [hk, h]
      exact List.mem_cons_self _ _
    · rw [if_neg hk] at h
      exact List.mem_cons_of_mem _ (ih k v h)

theorem mem_dinsert_inv {α β : Type} [DecidableEq α] :
    ∀ (m : List (α × β)) (k : α) (v : β) (p : α × β),
      p ∈ dinsert m k v → p = (k, v) ∨ p ∈ m := by
  intro m
  induction m with
  | nil =>
    intro k v p h
    exact Or.inl (List.mem_singleton.1 h)
  | cons q rest ih =>
    intro k v p h
    obtain ⟨k', v'⟩ := q
    unfold dinsert at h
    by_cases hk : k' = k
    · rw [if_pos hk] at h
      rcases List.mem_cons.1 h with h' | h'
      · exact Or.inl h'
      · exact Or.inr (List.mem_cons_of_mem _ h')
    · rw [if_neg hk] at h
      rcases List.mem_cons.1 h with h' | h'
      · exact Or.inr (by rw [h']; exact List.mem_cons_self _ _)
      · rcases ih k v p h' with h'' | h''
        · exact Or.inl h''
        · exact Or.inr (List.mem_cons_of_mem _ h'')

theorem insertNew_self {α : Type} [DecidableEq α] (l : List α) (a : α) :
    a ∈ insertNew l a := by
  unfold insertNew
  by_cases h : a ∈ l
  · rw [if_pos h]; exact h
  · rw [if_neg h]; simp

/-- Processing one subject's quality edges keeps the invariant that
every characteristic name recorded in the dict also sits in the global
name set (line 136 inserts the name whenever line 135 stores the
pair). -/
theorem charStep_inv (g : Graph) :
    ∀ (ts : List Triple) (acc : List (String × String) × List String),
      (∀ n v, (n, v) ∈ acc.1 → n ∈ acc.2) →
      ∀ n v, (n, v) ∈ (ts.foldl (charStep g) acc).1 →
        n ∈ (ts.foldl (charStep g) acc).2 := by
  intro ts
  induction ts with
  | nil => intro acc h; exact h
  | cons t ts ih =>
    intro acc h
    rw [List.foldl_cons]
    apply ih
    intro n v hmem
    unfold charStep at hmem ⊢
    split at hmem
    next heq =>
      exact h n v hmem
    next n' v' heq =>
      rcases mem_dinsert_inv acc.1 n' v' (n, v) hmem with h' | h'
      · injection h' with h1 h2
        rw [h1]
        exact insertNew_self _ _
      · exact mem_insertNew _ (h n v h')

theorem subjectCharsAcc_inv (g : Graph) (s : Node) (names : List String)
    (n v : String) (h : (n, v) ∈ (subjectCharsAcc g s names).1) :
    n ∈ (subjectCharsAcc g s names).2 := by
  unfold subjectCharsAcc at h ⊢
  exact charStep_inv g _ ([], names) (by intro n v h'; simp at h') n v h

theorem subjectCharsAcc_names_mono (g : Graph) (s : Node)
    (names : List String) (n : String) (h : n ∈ names) :
    n ∈ (subjectCharsAcc g s names).2 := by
  unfold subjectCharsAcc
  exact charStep_names_mono g _ ([], names) n h

/-- The `subject_to_chars` / `all_char_names` invariant for one step of
the subject loop of lines 108-139. -/
theorem buildCharsStep_inv (g : Graph)
    (st : List (Node × List (String × String)) × List String)
    (hst : ∀ s chars, (s, chars) ∈ st.1 → ∀ n v, (n, v) ∈ chars → n ∈ st.2)
    (s0 : Node) :
    ∀ s chars,
      (s, chars) ∈ dinsert st.1 s0 (subjectCharsAcc g s0 st.2).1 →
      ∀ n v, (n, v) ∈ chars → n ∈ (subjectCharsAcc g s0 st.2).2 := by
  intro s chars hmem n v hnv
  rcases mem_dinsert_inv st.1 s0 _ (s, chars) hmem with h' | h'
  · injection h' with h1 h2
    rw [h2] at hnv
    exact subjectCharsAcc_inv g s0 st.2 n v hnv
  · exact subjectCharsAcc_names_mono g s0 st.2 n (hst s chars h' n v hnv)

theorem buildChars_inv (g : Graph) :
    ∀ (ss : List Node)
      (st : List (Node × List (String × String)) × List String),
      (∀ s chars, (s, chars) ∈ st.1 → ∀ n v, (n, v) ∈ chars → n ∈ st.2) →
      ∀ s chars,
        (s, chars) ∈ (ss.foldl
          (fun st s =>
            (dinsert st.1 s (subjectCharsAcc g s st.2).1,
             (subjectCharsAcc g s st.2).2)) st).1 →
        ∀ n v, (n, v) ∈ chars →
          n ∈ (ss.foldl
            (fun st s =>
              (dinsert st.1 s (subjectCharsAcc g s st.2).1,
               (subjectCharsAcc g s st.2).2)) st).2 := by
  intro ss
  induction ss with
  | nil => intro st h; exact h
  | cons a ss ih =>
    intro st h
    rw [List.foldl_cons]
    exact ih _ (buildCharsStep_inv g st h a)

/-- Every characteristic name kept for any subject by lines 108-139 ends
up in `all_char_names`. -/
theorem buildChars_names_complete (g : Graph) (ss : List Node) (s : Node)
    (chars : List (String × String)) (n v : String)
    (h : (s, chars) ∈ (buildChars g ss).1) (hnv : (n, v) ∈ chars) :
    n ∈ (buildChars g ss).2 := by
  unfold buildChars at h ⊢
  exact buildChars_inv g ss ([], [])
    (by intro s chars h' n v hnv'; simp at h') s chars h n v hnv

theorem mapM_id_some_length :
    ∀ (cells : List (Option String)) (r : Row),
      cells.mapM id = some r → r.length = cells.length := by
  intro cells
  induction cells with
  | nil =>
    intro r h
    cases h
    rfl
  | cons c cs ih =>
    intro r h
    rw [List.mapM_cons] at h
    rcases c with _ | v
    · simp at h
    · rcases hm : cs.mapM id with _ | r'
      · rw [hm] at h
        cases h
      · rw [hm] at h
        injection h with h
        rw [← h]
        simp [ih r' hm]

/-- A row that survives the `"\t".join` of line 345 has exactly one cell
per joined value. -/
theorem emitRow_length (cells : List (Option String)) (r : Row)
    (h : emitRow cells = .ok r) : r.length = cells.length := by
  unfold emitRow at h
  rcases hm : cells.mapM id with _ | r'
  · rw [hm] at h
    cases h
  · rw [hm] at h
    injection h with h
    rw [← h]
    exact mapM_id_some_length cells r' hm

theorem emitAll_mem {α : Type} (f : α → Except Err Row) :
    ∀ (l : List α) (r : Row), r ∈ (emitAll f l).1 →
      ∃ a, a ∈ l ∧ f a = .ok r := by
  intro l
  induction l with
  | nil => intro r h; exact (List.not_mem_nil r h).elim
  | cons a l ih =>
    intro r h
    unfold emitAll at h
    rcases hfa : f a with e | row
    · rw [hfa] at h
      exact (List.not_mem_nil r h).elim
    · rw [hfa] at h
      rcases List.mem_cons.1 h with h' | h'
      · exact ⟨a, List.mem_cons_self _ _, by rw [hfa, h']⟩
      · rcases ih r h' with ⟨b, hb, hfb⟩
        exact ⟨b, List.mem_cons_of_mem _ hb, hfb⟩

theorem accumRows_mem {α : Type} (f : α → List Row × Option Err) :
    ∀ (l : List α) (r : Row), r ∈ (accumRows f l).1 →
      ∃ a, a ∈ l ∧ r ∈ (f a).1 := by
  intro l
  induction l with
  | nil => intro r h; exact (List.not_mem_nil r h).elim
  | cons a l ih =>
    intro r h
    unfold accumRows at h
    rcases hfa : f a with ⟨rs, _ | e⟩
    · rw [hfa] at h
      rcases List.mem_append.1 h with h' | h'
      · exact ⟨a, List.mem_cons_self _ _, by rw [hfa]; exact h'⟩
      · rcases ih r h' with ⟨b, hb, hfb⟩
        exact ⟨b, List.mem_cons_of_mem _ hb, hfb⟩
    · rw [hfa] at h
      exact ⟨a, List.mem_cons_self _ _, by rw [hfa]; exact h⟩

theorem charCells_length (chars : List (String × String)) (names : List String) :
    (charCells chars names).length = names.length := by
  simp [charCells]

theorem headerCols_length (scn : List String) :
    (headerCols scn).length = 4 + scn.length + 7 := by
  unfold headerCols
  rw [List.length_append, List.length_append]
  rfl

/-- Every row printed for one subject (the padded no-file row of
lines 311-317 as well as each per-file row of lines 323-347) has exactly
one cell per header column. -/
theorem renderSubject_row_length (scn : List String)
    (pn did gn sName : String)
    (s2chars : List (Node × List (String × String)))
    (s2files : List (Node × List FileInfo)) (s : Node) (r : Row)
    (h : r ∈ (renderSubject scn (headerCols scn).length pn did gn
      s2chars s2files s sName).1) :
    r.length = (headerCols scn).length := by
  unfold renderSubject at h
  split at h
  next => exact (List.not_mem_nil r h).elim
  next chars hc =>
    split at h
    next hf =>
      have hr := List.mem_singleton.1 h
      rw [hr]
      rw [List.length_append, List.length_replicate, List.length_append,
        charCells_length, headerCols_length]
      have : ([pn, did, gn, sName] : List String).length = 4 := rfl
      omega
    next files hf =>
      split at h
      next e he => exact (List.not_mem_nil r h).elim
      next sorted hs =>
        rcases emitAll_mem _ _ r h with ⟨fI, _, hrow⟩
        rw [emitRow_length _ _ hrow]
        rw [List.length_append, List.length_map, List.length_append,
          charCells_length, headerCols_length]
        rfl

theorem renderGroup_row_length (scn : List String) (pn did gn : String)
    (sg2subj : List (Node × List Node)) (s2name : List (Node × String))
    (s2chars : List (Node × List (String × String)))
    (s2files : List (Node × List FileInfo)) (sg : Node) (r : Row)
    (h : r ∈ (renderGroup scn (headerCols scn).length pn did gn sg2subj
      s2name s2chars s2files sg).1) :
    r.length = (headerCols scn).length := by
  unfold renderGroup at h
  split at h
  next => exact (List.not_mem_nil r h).elim
  next subjects hs =>
    split at h
    next e he => exact (List.not_mem_nil r h).elim
    next sorted hsort =>
      rcases accumRows_mem _ _ r h with ⟨p, _, hp⟩
      exact renderSubject_row_length scn pn did gn p.2 s2chars s2files
        p.1 r hp

theorem renderDataset_row_length (scn : List String) (pn did : String)
    (ds2study : List (Node × Node)) (st2groups : List (Node × List Node))
    (sg2name : List (Node × String)) (sg2subj : List (Node × List Node))
    (s2name : List (Node × String))
    (s2chars : List (Node × List (String × String)))
    (s2files : List (Node × List FileInfo)) (d : Node) (r : Row)
    (h : r ∈ (renderDataset scn (headerCols scn).length pn ds2study
      st2groups sg2name sg2subj s2name s2chars s2files d did).1) :
    r.length = (headerCols scn).length := by
  unfold renderDataset at h
  split at h
  next => exact (List.not_mem_nil r h).elim
  next study hst =>
    split at h
    next => exact (List.not_mem_nil r h).elim
    next groups hgr =>
      split at h
      next e he => exact (List.not_mem_nil r h).elim
      next sorted hsort =>
        rcases accumRows_mem _ _ r h with ⟨p, _, hp⟩
        exact renderGroup_row_length scn pn did p.2 sg2subj s2name
          s2chars s2files p.1 r hp

/-- Every line the program prints — the header and every data row, on
every path including those cut short by an abort — has exactly one cell
per header column. -/
theorem runG_row_length (g : Graph) (r : Row) (h : r ∈ (runG g).1) :
    r.length = (headerCols (scnOf g)).length := by
  unfold runG at h
  split at h
  next d0 pn heq =>
    split at h
    next e heq2 => exact (List.not_mem_nil r h).elim
    next s2files heq2 =>
      split at h
      next e heq3 =>
        rw [List.mem_singleton.1 h]
      next sortedDs heq3 =>
        rcases List.mem_cons.1 h with h' | h'
        · rw [h']
        · rcases accumRows_mem _ _ r h' with ⟨p, _, hp⟩
          exact renderDataset_row_length (scnOf g) pn p.2 (ds2studyOf g)
            (grpsOf g).1 (grpsOf g).2 (subjOf g).1 (subjOf g).2
            (chrsOf g).1 s2files p.1 r hp
  next tl hne => exact (List.not_mem_nil r h).elim

/-- **C7.**  (i) The header is the four fixed leading columns, then the
sorted global characteristic-name set, then the seven fixed trailing
columns (lines 276-281); (ii) a name is a dynamic header column exactly
when it is in the global name set, i.e. the header's dynamic columns are
the sorted union of the names retained across all subjects; (iii) the
dynamic columns are in sorted order; (iv) every characteristic name
retained for any Subject appears as a column of the header; (v) every
emitted line has exactly one cell per header column, on every path;
(vi) the cell of a characteristic column holds the subject's value when
present and the empty string when the subject lacks that characteristic
(lines 305-309) — never an omitted or null cell. -/
theorem c7_char_columns (g : Graph) :
    headerCols (scnOf g) =
      fixedHeadCols ++ ssort strLeB (chrsOf g).2 ++ fixedTailCols ∧
    (∀ n, n ∈ scnOf g ↔ n ∈ (chrsOf g).2) ∧
    (scnOf g).Pairwise (strLeB · · = true) ∧
    (∀ (s : Node) (chars : List (String × String)) (n v : String),
      dlookup (chrsOf g).1 s = some chars → (n, v) ∈ chars →
      n ∈ headerCols (scnOf g)) ∧
    (∀ r, r ∈ (runG g).1 → r.length = (headerCols (scnOf g)).length) ∧
    (∀ (chars : List (String × String)) (names : List String)
      (i : Nat) (hi : i < names.length)
      (hi' : i < (charCells chars names).length),
      (dlookup chars (names.get ⟨i, hi⟩) = none →
        (charCells chars names).get ⟨i, hi'⟩ = "") ∧
      (∀ v, dlookup chars (names.get ⟨i, hi⟩) = some v →
        (charCells chars names).get ⟨i, hi'⟩ = v)) := by
  refine ⟨rfl, ?_, ?_, ?_, ?_, ?_⟩
  · intro n
    exact mem_ssort strLeB n (chrsOf g).2
  · exact pairwise_ssort strLeB strLeB_total strLeB_trans (chrsOf g).2
  · intro s chars n v hl hnv
    have hmem : (s, chars) ∈ (chrsOf g).1 := dlookup_mem _ s chars hl
    have hn : n ∈ (chrsOf g).2 :=
      buildChars_names_complete g _ s chars n v hmem hnv
    have hs : n ∈ scnOf g := (mem_ssort strLeB n _).2 hn
    show n ∈ fixedHeadCols ++ ssort strLeB (chrsOf g).2 ++ fixedTailCols
    exact List.mem_append.2 (Or.inl (List.mem_append.2 (Or.inr hs)))
  · intro r h
    exact runG_row_length g r h
  · intro chars names i hi hi'
    have hmap : (charCells chars names).get ⟨i, hi'⟩ =
        match dlookup chars (names.get ⟨i, hi⟩) with
        | some v => v
        | none => "" := by
      simp [charCells, List.get_eq_getElem, List.getElem_map]
    refine ⟨?_, ?_⟩
    · intro hnone
      rw [hmap, hnone]
    · intro v hv
      rw [hmap, hv]

/-- **C7, witness.**  On a graph whose single subject keeps the
characteristic `sex`, the kept name is a column of the emitted
header. -/
theorem c7_char_columns_witness :
    dlookup (chrsOf c7WitnessGraph.dedup).1 "M" = some [("sex", "female")] ∧
    ("sex", "female") ∈ [(("sex" : String), ("female" : String))] ∧
    "sex" ∈ headerCols (scnOf c7WitnessGraph.dedup) :=
  ⟨by decide, by decide,
   (c7_char_columns c7WitnessGraph.dedup).2.2.2.1 "M" [("sex", "female")]
     "sex" "female" (by decide) (by decide)⟩

/-! ## Claim C2 -/

/-- The no-files row of lines 311-317, as one equation. -/
theorem renderSubject_nofiles (scn : List String) (headerLen : Nat)
    (pn did gn sName : String)
    (s2chars : List (Node × List (String × String)))
    (s2files : List (Node × List FileInfo)) (s : Node)
    (chars : List (String × String))
    (hc : dlookup s2chars s = some chars)
    (hf : dlookup s2files s = none) :
    renderSubject scn headerLen pn did gn s2chars s2files s sName =
      ([([pn, did, gn, sName] ++ charCells chars scn) ++
        List.replicate
          (headerLen - ([pn, did, gn, sName] ++ charCells chars scn).length)
          ""], none) := by
  unfold renderSubject
  rw [hc]
  show (match dlookup s2files s with
    | none =>
      ([([pn, did, gn, sName] ++ charCells chars scn) ++
        List.replicate
          (headerLen - ([pn, did, gn, sName] ++ charCells chars scn).length)
          ""], (none : Option Err))
    | some files =>
      match sortFilesM files with
      | .error e => ([], some e)
      | .ok sorted =>
        emitAll
          (fun f =>
            emitRow (([pn, did, gn, sName] ++ charCells chars scn).map some ++
              fileCells f))
          sorted) = _
  rw [hf]

/-- **C2, counterexample.**  On `c2CexGraph` the run prints **two** data
rows for the single file-less Subject `M` — one per group occurrence —
refuting "exactly one row is printed for that Subject".  (Both rows are
padded with empty cells to the header width.) -/
theorem c2_single_row_counterexample :
    (subjOf c2CexGraph.dedup).2 = [("M", "S1")] ∧
    filePhase c2CexGraph.dedup gtexTitle (allDatasets c2CexGraph.dedup) =
      .ok [] ∧
    run c2CexGraph =
      ([headerCols [],
        [gtexTitle, "phs1", "g1", "S1", "", "", "", "", "", "", ""],
        [gtexTitle, "phs1", "g2", "S1", "", "", "", "", "", "", ""]], none) := by
  refine ⟨by decide, by decide, ?_⟩
  decide

/-- **C2, amended.**  For every *occurrence* of a Subject in a rendered
StudyGroup: if the Subject has zero linked FileInfo records, exactly one
row is printed for that occurrence, padded with empty cells up to the
full header width; in particular its trailing six columns (indeed all
seven file columns) are empty strings.  A Subject that is a member of
several rendered groups gets one such row per occurrence. -/
theorem c2_nofiles_row_amended (scn : List String) (pn did gn sName : String)
    (s2chars : List (Node × List (String × String)))
    (s2files : List (Node × List FileInfo)) (s : Node)
    (chars : List (String × String))
    (hc : dlookup s2chars s = some chars)
    (hf : dlookup s2files s = none) :
    renderSubject scn (headerCols scn).length pn did gn s2chars s2files s sName =
      ([([pn, did, gn, sName] ++ charCells chars scn) ++
        List.replicate 7 ""], none) ∧
    (([pn, did, gn, sName] ++ charCells chars scn) ++
      List.replicate 7 "").length = (headerCols scn).length ∧
    (([pn, did, gn, sName] ++ charCells chars scn) ++ List.replicate 7 "") =
      (([pn, did, gn, sName] ++ charCells chars scn) ++ [""]) ++
        List.replicate 6 "" := by
  have hhl : (headerCols scn).length = 4 + scn.length + 7 := by
    simp [headerCols, fixedHeadCols, fixedTailCols]
    omega
  have hcv : ([pn, did, gn, sName] ++ charCells chars scn).length =
      4 + scn.length := by
    simp [charCells_length]
    omega
  have hrep : (headerCols scn).length -
      ([pn, did, gn, sName] ++ charCells chars scn).length = 7 := by
    omega
  refine ⟨?_, by simp [charCells_length, hhl]; omega, ?_⟩
  · rw [renderSubject_nofiles scn _ pn did gn sName s2chars s2files s chars
      hc hf, hrep]
  · simp only [List.append_assoc]
    rfl

/-- Witness for the amended C2 at a concrete subject with no
characteristics and no files. -/
theorem c2_nofiles_row_amended_witness :
    renderSubject [] (headerCols []).length "p" "i" "g"
      [("M", [])] [] "M" "S1" =
      ([["p", "i", "g", "S1"] ++ List.replicate 7 ""], none) := by
  have h := c2_nofiles_row_amended [] "p" "i" "g" "S1" [("M", [])] [] "M" []
    (by decide) (by decide)
  simpa using h.1

theorem c9_nameless_member_keyerror_witness :
    dlookup (buildSubjects c9WitnessGraph.dedup
        (dkeys (grpsOf c9WitnessGraph.dedup).2)).2 "M3" = none ∧
    renderGroup [] 11 "p" "phs1" "Group1"
      (buildSubjects c9WitnessGraph.dedup
        (dkeys (grpsOf c9WitnessGraph.dedup).2)).1
      (buildSubjects c9WitnessGraph.dedup
        (dkeys (grpsOf c9WitnessGraph.dedup).2)).2 [] [] "G1" =
      ([], some .keyError) := by
  have h := c9_nameless_member_keyerror c9WitnessGraph.dedup
    (dkeys (grpsOf c9WitnessGraph.dedup).2) "G1" "M3"
    (by decide) (by decide) (by decide) (by decide)
  exact ⟨h.2.1, h.2.2 [] 11 "p" "phs1" "Group1" [] []⟩

end TabularDump
